import Mathlib

/-!
# Verification of the `give-me-idea` live-editing and synchronization engine

This file gives a shallow embedding of the editing engine implemented by the
`LivePreview` component (`src/components/InputArea.tsx`, lines 542-939) together
with the artifact feedback loop implemented by `handleUpdateCreation` in
`src/App.tsx`.  The engine keeps a live text buffer (`editableCode`), a
debounce-settled copy (`debouncedCode`), a bounded undo/redo history
(`history`/`historyIndex`), two debounce timers (preview-sync at 800ms,
snapshot-capture at 1000ms) and a provenance flag (`isInternalChange`).

The embedding models React's cooperative single-threaded semantics explicitly:

* every state-changing event (a user action or a timer callback) applies its
  `setState` updates as one batch, after which the three `useEffect` blocks of
  `LivePreview` re-run exactly when their dependency lists changed, in
  declaration order; a re-run first disposes the previous instance's cleanup,
  which clears that instance's pending `setTimeout`;
* the load/reset effect (lines 569-580) updates state; those updates become
  visible to the other effects only on the following render, which is modelled
  as a second effect pass;
* timer callbacks use the values captured by their closure (`editableCode`,
  `creation`, `historyIndex`, `history`), except where the source uses a
  functional `setState` update (`setHistory(prev => ...)`,
  `setHistoryIndex(prev => ...)`), which reads the then-current value.

Observable behaviour is recorded in three logs: `persistLog` (calls of the
`onUpdate` persistence bridge), `pushLog` (snapshot pushes onto the history
stack) and `renderLog` (changes of the stabilized content handed to the
key-ed preview iframe).
-/

namespace GiveMeIdea

/-- Preview-sync / persistence debounce delay in ms (source line 598). -/
def Dp : Nat := 800

/-- Snapshot-capture debounce delay in ms (source line 618). -/
def Ds : Nat := 1000

/-- History capacity (source line 613: `if (newHistory.length > 100) newHistory.shift()`). -/
def historyCap : Nat := 100

/-- An artifact record.  The `Creation` interface is declared in
`components/CreationHistory.tsx`; the fields modelled here are the ones the
engine reads and writes (`id`, `name`, `html`, `timestamp`), as used in
`App.tsx` and `InputArea.tsx`.  Timestamps are modelled as naturals. -/
structure Creation where
  id : String
  name : String
  html : String
  timestamp : Nat
  deriving DecidableEq

/-- The pending preview-sync timer: deadline plus the values captured by the
effect closure of source lines 582-600 (`editableCode` and `creation`). -/
structure PreviewTimer where
  deadline : Nat
  code : String
  artifact : Option Creation
  deriving DecidableEq

/-- The pending snapshot-capture timer: deadline plus the values captured by
the effect closure of source lines 602-621. -/
structure SnapshotTimer where
  deadline : Nat
  code : String
  hist : List String
  histIdx : Int
  deriving DecidableEq

/-- The full state of the editing engine, combining the component state of
`LivePreview` with the parent's `activeCreation` and the observable logs. -/
structure EngineState where
  creation : Option Creation
  editableCode : String
  debouncedCode : String
  isSyncing : Bool
  lastSaved : Option Nat
  history : List String
  historyIndex : Int
  isInternalChange : Bool
  prevCreationId : Option String
  previewTimer : Option PreviewTimer
  snapshotTimer : Option SnapshotTimer
  persistLog : List (Nat × Creation)
  pushLog : List (Nat × String)
  renderLog : List (Nat × String)
  deriving DecidableEq

/-- The initial component state (source lines 547-555). -/
def initState : EngineState :=
  { creation := none,
    editableCode := "",
    debouncedCode := "",
    isSyncing := false,
    lastSaved := none,
    history := [],
    historyIndex := 0 - 1,
    isInternalChange := false,
    prevCreationId := none,
    previewTimer := none,
    snapshotTimer := none,
    persistLog := [],
    pushLog := [],
    renderLog := [] }

/-- JavaScript array indexing `h[i]` for a possibly negative index:
`none` models `undefined`. -/
def snapAt (h : List String) (i : Int) : Option String :=
  if i < 0 then none else h.get? i.toNat

/-- Body of the preview-sync effect (source lines 582-600), run at time `t`
when its dependencies changed.  The previous instance's cleanup has cleared
the previous timer, so the timer field is overwritten in both branches.
On the early return (`editableCode === debouncedCode`) no new timer is set
and `isSyncing` is left untouched. -/
def runPreviewEffect (t : Nat) (s : EngineState) : EngineState :=
  if s.editableCode = s.debouncedCode then { s with previewTimer := none }
  else
    { s with isSyncing := true,
             previewTimer := some ⟨t + Dp, s.editableCode, s.creation⟩ }

/-- Body of the snapshot-capture effect (source lines 602-621), run at time
`t` when its dependencies changed.  If the provenance flag
`isInternalChange` is set, it is consumed and no timer is armed. -/
def runSnapshotEffect (t : Nat) (s : EngineState) : EngineState :=
  if s.isInternalChange then
    { s with isInternalChange := false, snapshotTimer := none }
  else
    { s with
        snapshotTimer := some ⟨t + Ds, s.editableCode, s.history, s.historyIndex⟩ }

/-- Body of the load/reset effect (source lines 569-580), run when the
`creation` prop changed.  `if (creation?.html)` is a JavaScript truthiness
test: the reset is skipped for an empty `html` string. -/
def runLoadEffect (s : EngineState) : EngineState :=
  match s.creation with
  | some c =>
      if s.prevCreationId = some c.id then s
      else
        let s' := { s with prevCreationId := some c.id }
        if c.html ≠ "" then
          { s' with editableCode := c.html,
                    debouncedCode := c.html,
                    history := [c.html],
                    historyIndex := 0,
                    lastSaved := none }
        else s'
  | none =>
      if s.prevCreationId = none then s else { s with prevCreationId := none }

/-- Effect processing after a state-changing event: `prev` is the state of the
previous render, `cur` the state after the event's batched updates.  Each
effect re-runs exactly when its dependency list changed.  The load effect is
declared first in the source but its own state updates only become visible on
the next render; since it reads none of the fields the other two effects
write, running it after them within the first pass is equivalent.  A second
pass re-runs the effects whose dependencies the load effect changed. -/
def effectsPass1 (t : Nat) (prev cur : EngineState) : EngineState :=
  let a := if cur.editableCode = prev.editableCode ∧
              cur.debouncedCode = prev.debouncedCode ∧
              cur.creation = prev.creation
           then cur else runPreviewEffect t cur
  let b := if cur.editableCode = prev.editableCode ∧
              cur.history = prev.history ∧
              cur.historyIndex = prev.historyIndex
           then a else runSnapshotEffect t a
  if cur.creation = prev.creation then b else runLoadEffect b

def runEffects (t : Nat) (prev cur : EngineState) : EngineState :=
  let c := effectsPass1 t prev cur
  let d := if c.editableCode = cur.editableCode ∧
              c.debouncedCode = cur.debouncedCode
           then c else runPreviewEffect t c
  if c.editableCode = cur.editableCode ∧
     c.history = cur.history ∧
     c.historyIndex = cur.historyIndex
  then d else runSnapshotEffect t d

/-- A user edit: `CodeEditor`'s `onChange={setEditableCode}` (source line
889).  Setting the identical value changes no dependency, so no effect
re-runs. -/
def editEv (t : Nat) (c : String) (s : EngineState) : EngineState :=
  if c = s.editableCode then s
  else runEffects t s { s with editableCode := c }

/-- `handleUndo` (source lines 631-638). -/
def undoEv (t : Nat) (s : EngineState) : EngineState :=
  if 0 < s.historyIndex then
    let nextIdx := s.historyIndex - 1
    runEffects t s
      { s with isInternalChange := true,
               historyIndex := nextIdx,
               editableCode := (snapAt s.history nextIdx).getD "" }
  else s

/-- `handleRedo` (source lines 640-647). -/
def redoEv (t : Nat) (s : EngineState) : EngineState :=
  if s.historyIndex < (s.history.length : Int) - 1 then
    let nextIdx := s.historyIndex + 1
    runEffects t s
      { s with isInternalChange := true,
               historyIndex := nextIdx,
               editableCode := (snapAt s.history nextIdx).getD "" }
  else s

/-- `handleSave` (source lines 649-659) together with the parent's
`handleUpdateCreation` (App.tsx lines 216-219), which stores the updated
artifact and passes it back down as the `creation` prop. -/
def saveEv (t : Nat) (s : EngineState) : EngineState :=
  match s.creation with
  | none => s
  | some cr =>
      let updated : Creation := { cr with html := s.editableCode, timestamp := t }
      runEffects t s
        { s with creation := some updated,
                 persistLog := (t, updated) :: s.persistLog,
                 lastSaved := some t,
                 debouncedCode := s.editableCode,
                 renderLog :=
                   if s.editableCode = s.debouncedCode then s.renderLog
                   else (t, s.editableCode) :: s.renderLog }

/-- Loading an artifact: the parent sets `activeCreation` (via selection
or generation) and the `creation` prop changes. -/
def loadEv (t : Nat) (c : Creation) (s : EngineState) : EngineState :=
  runEffects t s { s with creation := some c }

/-- The preview-sync timer callback (source lines 585-598): stabilize the
captured buffer, clear `isSyncing`, and invoke the persistence bridge when
the captured buffer differs from the captured artifact's content.  The
parent then stores the updated artifact and passes it back down. -/
def firePreview (s : EngineState) (pt : PreviewTimer) : EngineState :=
  let t := pt.deadline
  let s1 := { s with previewTimer := none,
                     debouncedCode := pt.code,
                     isSyncing := false,
                     renderLog :=
                       if pt.code = s.debouncedCode then s.renderLog
                       else (t, pt.code) :: s.renderLog }
  let s2 :=
    match pt.artifact with
    | some cr =>
        if pt.code ≠ cr.html then
          let updated : Creation := { cr with html := pt.code, timestamp := t }
          { s1 with creation := some updated,
                    persistLog := (t, updated) :: s1.persistLog,
                    lastSaved := some t }
        else s1
    | none => s1
  runEffects t s s2

/-- The snapshot-capture timer callback (source lines 608-617).  The guard
and the slice index use the captured values; the functional updates
`setHistory(prev => ...)` and `setHistoryIndex(prev => ...)` read the
then-current state. -/
def fireSnapshot (s : EngineState) (st : SnapshotTimer) : EngineState :=
  let t := st.deadline
  if st.code ≠ "" ∧ 0 < st.hist.length ∧ snapAt st.hist st.histIdx ≠ some st.code then
    let pushed := s.history.take (st.histIdx + 1).toNat ++ [st.code]
    let newHist := if (historyCap : Nat) < pushed.length then pushed.drop 1 else pushed
    runEffects t s
      { s with snapshotTimer := none,
               history := newHist,
               historyIndex := min (s.historyIndex + 1) 99,
               pushLog := (t, st.code) :: s.pushLog }
  else { s with snapshotTimer := none }

/-- The earliest pending timer with deadline at most `T`, if any; when both
are due the earlier deadline fires first. -/
def nextFire (T : Nat) (s : EngineState) : Option (PreviewTimer ⊕ SnapshotTimer) :=
  match s.previewTimer, s.snapshotTimer with
  | none, none => none
  | some pt, none => if pt.deadline ≤ T then some (Sum.inl pt) else none
  | none, some st => if st.deadline ≤ T then some (Sum.inr st) else none
  | some pt, some st =>
      if pt.deadline ≤ T ∧ pt.deadline ≤ st.deadline then some (Sum.inl pt)
      else if st.deadline ≤ T then some (Sum.inr st) else none

/-- Let time advance to `T`: fire due timers in deadline order.  `fuel`
bounds the number of firings (each event arms at most two timers and a
firing re-arms at most one, so a small fuel suffices on every trace of
interest; the invariant theorems hold for every fuel). -/
def elapse (T : Nat) : Nat → EngineState → EngineState
  | 0, s => s
  | fuel + 1, s =>
      match nextFire T s with
      | none => s
      | some (Sum.inl pt) => elapse T fuel (firePreview s pt)
      | some (Sum.inr st) => elapse T fuel (fireSnapshot s st)

/-- The engine's inbound events. -/
inductive Ev where
  | load (c : Creation)
  | edit (c : String)
  | undo
  | redo
  | save
  deriving DecidableEq

/-- Apply one event at time `t`. -/
def applyEv (t : Nat) (e : Ev) (s : EngineState) : EngineState :=
  match e with
  | Ev.load c => loadEv t c s
  | Ev.edit c => editEv t c s
  | Ev.undo => undoEv t s
  | Ev.redo => redoEv t s
  | Ev.save => saveEv t s

/-- Timer-firing fuel used by the event driver. -/
def fuelN : Nat := 8

/-- Run a time-ordered list of events: before each event, due timers fire. -/
def run : EngineState → List (Nat × Ev) → EngineState
  | s, [] => s
  | s, (t, e) :: rest => run (applyEv t e (elapse t fuelN s)) rest

/-- The re-instantiation key of the editor-view preview iframe:
`key={debouncedCode.length}` (source line 896). -/
def previewKey (debounced : String) : Nat := debounced.length

/-- The `sandbox` attribute tokens of the editor-view preview iframe
(source line 900). -/
def editorSandboxTokens : List String :=
  ["allow-scripts", "allow-forms", "allow-popups", "allow-modals",
   "allow-same-origin"]

/-- The `sandbox` attribute tokens of the full-screen preview iframe
(source line 929). -/
def fullSandboxTokens : List String :=
  ["allow-scripts", "allow-forms", "allow-popups", "allow-modals",
   "allow-same-origin"]

/-- A sample artifact used by concrete scenarios. -/
def artA : Creation := ⟨"a1", "art", "A", 0⟩

/-! ## Helper lemmas: fields each effect body leaves unchanged -/

theorem previewEffect_fields (t : Nat) (s : EngineState) :
    (runPreviewEffect t s).editableCode = s.editableCode ∧
    (runPreviewEffect t s).debouncedCode = s.debouncedCode ∧
    (runPreviewEffect t s).creation = s.creation ∧
    (runPreviewEffect t s).history = s.history ∧
    (runPreviewEffect t s).historyIndex = s.historyIndex ∧
    (runPreviewEffect t s).isInternalChange = s.isInternalChange ∧
    (runPreviewEffect t s).prevCreationId = s.prevCreationId ∧
    (runPreviewEffect t s).snapshotTimer = s.snapshotTimer ∧
    (runPreviewEffect t s).lastSaved = s.lastSaved ∧
    (runPreviewEffect t s).persistLog = s.persistLog ∧
    (runPreviewEffect t s).pushLog = s.pushLog ∧
    (runPreviewEffect t s).renderLog = s.renderLog := by
  unfold runPreviewEffect; split <;> exact ⟨rfl, rfl, rfl, rfl, rfl, rfl, rfl, rfl, rfl, rfl, rfl, rfl⟩

theorem snapshotEffect_fields (t : Nat) (s : EngineState) :
    (runSnapshotEffect t s).editableCode = s.editableCode ∧
    (runSnapshotEffect t s).debouncedCode = s.debouncedCode ∧
    (runSnapshotEffect t s).creation = s.creation ∧
    (runSnapshotEffect t s).history = s.history ∧
    (runSnapshotEffect t s).historyIndex = s.historyIndex ∧
    (runSnapshotEffect t s).isSyncing = s.isSyncing ∧
    (runSnapshotEffect t s).prevCreationId = s.prevCreationId ∧
    (runSnapshotEffect t s).previewTimer = s.previewTimer ∧
    (runSnapshotEffect t s).lastSaved = s.lastSaved ∧
    (runSnapshotEffect t s).persistLog = s.persistLog ∧
    (runSnapshotEffect t s).pushLog = s.pushLog ∧
    (runSnapshotEffect t s).renderLog = s.renderLog := by
  unfold runSnapshotEffect; split <;> exact ⟨rfl, rfl, rfl, rfl, rfl, rfl, rfl, rfl, rfl, rfl, rfl, rfl⟩

theorem loadEffect_fields (s : EngineState) :
    (runLoadEffect s).creation = s.creation ∧
    (runLoadEffect s).isSyncing = s.isSyncing ∧
    (runLoadEffect s).isInternalChange = s.isInternalChange ∧
    (runLoadEffect s).previewTimer = s.previewTimer ∧
    (runLoadEffect s).snapshotTimer = s.snapshotTimer ∧
    (runLoadEffect s).persistLog = s.persistLog ∧
    (runLoadEffect s).pushLog = s.pushLog ∧
    (runLoadEffect s).renderLog = s.renderLog := by
  unfold runLoadEffect
  cases hc : s.creation <;> dsimp only <;> split_ifs <;> simp_all

/-- The effect pipeline never touches the three observation logs nor the
`creation` prop. -/
theorem runEffects_logs (t : Nat) (p c : EngineState) :
    (runEffects t p c).pushLog = c.pushLog ∧
    (runEffects t p c).persistLog = c.persistLog ∧
    (runEffects t p c).renderLog = c.renderLog ∧
    (runEffects t p c).creation = c.creation := by
  unfold runEffects effectsPass1
  dsimp only
  split_ifs <;>
    simp_all [previewEffect_fields, snapshotEffect_fields, loadEffect_fields]

/-- When the `creation` prop did not change, the load effect is skipped and
the effect pipeline leaves the buffer, history and bookkeeping fields of the
post-event state untouched (only `isSyncing`, the provenance flag and the
two timers can change). -/
theorem runEffects_of_creation_eq (t : Nat) (p c : EngineState)
    (hc : c.creation = p.creation) :
    (runEffects t p c).editableCode = c.editableCode ∧
    (runEffects t p c).debouncedCode = c.debouncedCode ∧
    (runEffects t p c).history = c.history ∧
    (runEffects t p c).historyIndex = c.historyIndex ∧
    (runEffects t p c).prevCreationId = c.prevCreationId ∧
    (runEffects t p c).lastSaved = c.lastSaved := by
  unfold runEffects effectsPass1
  dsimp only
  split_ifs <;>
    simp_all [previewEffect_fields, snapshotEffect_fields, loadEffect_fields]

/-- If the snapshot-capture effect body leaves a pending timer, that timer
captures the state it ran on. -/
theorem snapshotEffect_arm (t : Nat) (s : EngineState) :
    ∀ st, (runSnapshotEffect t s).snapshotTimer = some st →
      st.code = s.editableCode ∧ st.hist = s.history ∧ st.histIdx = s.historyIndex := by
  intro st hst
  unfold runSnapshotEffect at hst
  split at hst
  · simp at hst
  · cases hst; exact ⟨rfl, rfl, rfl⟩

/-- Pass-1 coupling: if the incoming pending snapshot timer captured the
previous render's buffer/history values, then any snapshot timer pending
after pass 1 captures the post-event values. -/
theorem effectsPass1_coupling (t : Nat) (p c : EngineState)
    (hcpl : ∀ st, c.snapshotTimer = some st →
        st.code = p.editableCode ∧ st.hist = p.history ∧ st.histIdx = p.historyIndex) :
    ∀ st, (effectsPass1 t p c).snapshotTimer = some st →
        st.code = c.editableCode ∧ st.hist = c.history ∧ st.histIdx = c.historyIndex := by
  intro st hst
  unfold effectsPass1 at hst
  dsimp only at hst
  rw [show ∀ x : EngineState, (if c.creation = p.creation then x else runLoadEffect x).snapshotTimer
        = x.snapshotTimer from fun x => by
          split
          · rfl
          · exact (loadEffect_fields x).2.2.2.2.1] at hst
  by_cases h2 : c.editableCode = p.editableCode ∧ c.history = p.history ∧
      c.historyIndex = p.historyIndex
  · rw [if_pos h2] at hst
    have ha : (if c.editableCode = p.editableCode ∧ c.debouncedCode = p.debouncedCode ∧
        c.creation = p.creation then c else runPreviewEffect t c).snapshotTimer
          = c.snapshotTimer := by
      split
      · rfl
      · exact (previewEffect_fields t c).2.2.2.2.2.2.2.1
    rw [ha] at hst
    obtain ⟨h, h', h''⟩ := hcpl st hst
    exact ⟨h.trans h2.1.symm, h'.trans h2.2.1.symm, h''.trans h2.2.2.symm⟩
  · rw [if_neg h2] at hst
    rcases snapshotEffect_arm t _ st hst with ⟨h, h', h''⟩
    have ha : (if c.editableCode = p.editableCode ∧ c.debouncedCode = p.debouncedCode ∧
          c.creation = p.creation then c else runPreviewEffect t c).editableCode
            = c.editableCode ∧
        (if c.editableCode = p.editableCode ∧ c.debouncedCode = p.debouncedCode ∧
          c.creation = p.creation then c else runPreviewEffect t c).history = c.history ∧
        (if c.editableCode = p.editableCode ∧ c.debouncedCode = p.debouncedCode ∧
          c.creation = p.creation then c else runPreviewEffect t c).historyIndex
            = c.historyIndex := by
      split
      · exact ⟨rfl, rfl, rfl⟩
      · exact ⟨(previewEffect_fields t c).1, (previewEffect_fields t c).2.2.2.1,
               (previewEffect_fields t c).2.2.2.2.1⟩
    exact ⟨h.trans ha.1, h'.trans ha.2.1, h''.trans ha.2.2⟩

/-- Full coupling through the effect pipeline: any snapshot timer pending
after the pipeline captures the values the resulting state currently holds,
provided the incoming pending timer captured the previous render's values.
This is the cancellation discipline: a change of a captured dependency
re-runs the effect, which first clears the stale timer. -/
theorem runEffects_snapshot_coupling (t : Nat) (p c : EngineState)
    (hcpl : ∀ st, c.snapshotTimer = some st →
        st.code = p.editableCode ∧ st.hist = p.history ∧ st.histIdx = p.historyIndex) :
    ∀ st, (runEffects t p c).snapshotTimer = some st →
        st.code = (runEffects t p c).editableCode ∧
        st.hist = (runEffects t p c).history ∧
        st.histIdx = (runEffects t p c).historyIndex := by
  intro st hst
  unfold runEffects at hst ⊢
  dsimp only at hst ⊢
  by_cases h5 : (effectsPass1 t p c).editableCode = c.editableCode ∧
      (effectsPass1 t p c).history = c.history ∧
      (effectsPass1 t p c).historyIndex = c.historyIndex
  · rw [if_pos h5] at hst ⊢
    have hd : (if (effectsPass1 t p c).editableCode = c.editableCode ∧
          (effectsPass1 t p c).debouncedCode = c.debouncedCode
        then effectsPass1 t p c else runPreviewEffect t (effectsPass1 t p c)).snapshotTimer
          = (effectsPass1 t p c).snapshotTimer ∧
        (if (effectsPass1 t p c).editableCode = c.editableCode ∧
          (effectsPass1 t p c).debouncedCode = c.debouncedCode
        then effectsPass1 t p c else runPreviewEffect t (effectsPass1 t p c)).editableCode
          = (effectsPass1 t p c).editableCode ∧
        (if (effectsPass1 t p c).editableCode = c.editableCode ∧
          (effectsPass1 t p c).debouncedCode = c.debouncedCode
        then effectsPass1 t p c else runPreviewEffect t (effectsPass1 t p c)).history
          = (effectsPass1 t p c).history ∧
        (if (effectsPass1 t p c).editableCode = c.editableCode ∧
          (effectsPass1 t p c).debouncedCode = c.debouncedCode
        then effectsPass1 t p c else runPreviewEffect t (effectsPass1 t p c)).historyIndex
          = (effectsPass1 t p c).historyIndex := by
      split
      · exact ⟨rfl, rfl, rfl, rfl⟩
      · exact ⟨(previewEffect_fields t _).2.2.2.2.2.2.2.1,
               (previewEffect_fields t _).1,
               (previewEffect_fields t _).2.2.2.1,
               (previewEffect_fields t _).2.2.2.2.1⟩
    rw [hd.1] at hst
    have hco := effectsPass1_coupling t p c hcpl st hst
    rw [hd.2.1, hd.2.2.1, hd.2.2.2]
    exact ⟨hco.1.trans h5.1.symm, hco.2.1.trans h5.2.1.symm, hco.2.2.trans h5.2.2.symm⟩
  · rw [if_neg h5] at hst ⊢
    rcases snapshotEffect_arm t _ st hst with ⟨h, h', h''⟩
    exact ⟨h.trans (snapshotEffect_fields t _).1.symm,
           h'.trans (snapshotEffect_fields t _).2.2.2.1.symm,
           h''.trans (snapshotEffect_fields t _).2.2.2.2.1.symm⟩

/-- The load effect either leaves history and index alone or reseeds them to
a singleton of the (non-empty) artifact content at index 0. -/
theorem runLoadEffect_history_cases (s : EngineState) :
    ((runLoadEffect s).history = s.history ∧
     (runLoadEffect s).historyIndex = s.historyIndex) ∨
    (∃ cr, s.creation = some cr ∧ cr.html ≠ "" ∧
     (runLoadEffect s).history = [cr.html] ∧ (runLoadEffect s).historyIndex = 0) := by
  cases hc : s.creation with
  | none =>
      left
      constructor <;> (unfold runLoadEffect; rw [hc]; dsimp only; split <;> rfl)
  | some cr =>
      unfold runLoadEffect
      rw [hc]
      dsimp only
      split_ifs with h1 h2
      · exact Or.inl ⟨rfl, rfl⟩
      · exact Or.inr ⟨cr, rfl, h2, rfl, rfl⟩
      · exact Or.inl ⟨rfl, rfl⟩

/-- The conditional load step either leaves history and index alone or
reseeds them from a non-empty artifact content. -/
theorem ite_load_history_cases (q : Prop) [Decidable q] (b : EngineState) :
    ((if q then b else runLoadEffect b).history = b.history ∧
     (if q then b else runLoadEffect b).historyIndex = b.historyIndex) ∨
    (∃ cr, b.creation = some cr ∧ cr.html ≠ "" ∧
     (if q then b else runLoadEffect b).history = [cr.html] ∧
     (if q then b else runLoadEffect b).historyIndex = 0) := by
  split
  · exact Or.inl ⟨rfl, rfl⟩
  · exact runLoadEffect_history_cases b

/-- Pass 1 either leaves history and index alone or reseeds them from a
non-empty artifact content. -/
theorem effectsPass1_history_cases (t : Nat) (p c : EngineState) :
    ((effectsPass1 t p c).history = c.history ∧
     (effectsPass1 t p c).historyIndex = c.historyIndex) ∨
    (∃ cr, c.creation = some cr ∧ cr.html ≠ "" ∧
     (effectsPass1 t p c).history = [cr.html] ∧
     (effectsPass1 t p c).historyIndex = 0) := by
  have hb : ∀ x : EngineState,
      x.history = c.history → x.historyIndex = c.historyIndex →
      x.creation = c.creation →
      ((if c.creation = p.creation then x else runLoadEffect x).history = c.history ∧
       (if c.creation = p.creation then x else runLoadEffect x).historyIndex
          = c.historyIndex) ∨
      (∃ cr, c.creation = some cr ∧ cr.html ≠ "" ∧
       (if c.creation = p.creation then x else runLoadEffect x).history = [cr.html] ∧
       (if c.creation = p.creation then x else runLoadEffect x).historyIndex = 0) := by
    intro x h1 h2 h3
    rcases ite_load_history_cases (c.creation = p.creation) x with
        ⟨ha, ha'⟩ | ⟨cr, hcr, hnem, ha, ha'⟩
    · exact Or.inl ⟨ha.trans h1, ha'.trans h2⟩
    · exact Or.inr ⟨cr, h3 ▸ hcr, hnem, ha, ha'⟩
  unfold effectsPass1
  dsimp only
  apply hb <;>
    split_ifs <;> simp [previewEffect_fields, snapshotEffect_fields]

/-- The whole effect pipeline either leaves history and index alone or
reseeds them from a non-empty artifact content. -/
theorem runEffects_history_cases (t : Nat) (p c : EngineState) :
    ((runEffects t p c).history = c.history ∧
     (runEffects t p c).historyIndex = c.historyIndex) ∨
    (∃ cr, c.creation = some cr ∧ cr.html ≠ "" ∧
     (runEffects t p c).history = [cr.html] ∧
     (runEffects t p c).historyIndex = 0) := by
  have hkey : (runEffects t p c).history = (effectsPass1 t p c).history ∧
      (runEffects t p c).historyIndex = (effectsPass1 t p c).historyIndex := by
    unfold runEffects
    dsimp only
    constructor <;> split_ifs <;>
      simp [previewEffect_fields, snapshotEffect_fields]
  rcases effectsPass1_history_cases t p c with ⟨ha, hb⟩ | ⟨cr, hcr, hnem, ha, hb⟩
  · exact Or.inl ⟨hkey.1.trans ha, hkey.2.trans hb⟩
  · exact Or.inr ⟨cr, hcr, hnem, hkey.1.trans ha, hkey.2.trans hb⟩

/-! ## The reachable-state invariant -/

/-- History-stack bounds: at most `historyCap` entries, and a valid index
whenever the stack is non-empty. -/
def histBounded (s : EngineState) : Prop :=
  s.history.length ≤ historyCap ∧
  (s.history ≠ [] → 0 ≤ s.historyIndex ∧ s.historyIndex < (s.history.length : Int))

/-- Every history entry and every pushed snapshot is a non-empty string. -/
def histNonempty (s : EngineState) : Prop :=
  (∀ x ∈ s.history, x ≠ "") ∧ (∀ pr ∈ s.pushLog, pr.2 ≠ "")

/-- A pending snapshot timer always captures the current buffer, history and
index (the cancellation discipline of the snapshot effect). -/
def coupled (s : EngineState) : Prop :=
  ∀ st, s.snapshotTimer = some st →
    st.code = s.editableCode ∧ st.hist = s.history ∧ st.histIdx = s.historyIndex

/-- Invariant of all reachable engine states. -/
def Inv (s : EngineState) : Prop := histBounded s ∧ coupled s ∧ histNonempty s

theorem inv_initState : Inv initState := by
  refine ⟨⟨?_, ?_⟩, ?_, ?_, ?_⟩
  · simp [initState, historyCap]
  · intro hn; simp [initState] at hn
  · intro st h; simp [initState] at h
  · intro x hx; simp [initState] at hx
  · intro pr hpr; simp [initState] at hpr

/-- Master preservation lemma: if the post-event state satisfies the bounds
and non-emptiness conditions and its pending snapshot timer (if any)
captured the previous render's values, the full invariant holds after the
effect pipeline. -/
theorem inv_runEffects (t : Nat) (p c : EngineState)
    (hb : histBounded c) (hne : histNonempty c)
    (hcpl : ∀ st, c.snapshotTimer = some st →
        st.code = p.editableCode ∧ st.hist = p.history ∧ st.histIdx = p.historyIndex) :
    Inv (runEffects t p c) := by
  refine ⟨?_, runEffects_snapshot_coupling t p c hcpl, ?_, ?_⟩
  · rcases runEffects_history_cases t p c with ⟨h1, h2⟩ | ⟨cr, hcr, hnem, h1, h2⟩
    · exact ⟨by rw [h1]; exact hb.1, fun hn => by
        rw [h1] at hn ⊢; rw [h2]; exact hb.2 hn⟩
    · refine ⟨by rw [h1]; simp [historyCap], fun hn => ?_⟩
      rw [h1, h2]
      simp
  · rcases runEffects_history_cases t p c with ⟨h1, h2⟩ | ⟨cr, hcr, hnem, h1, h2⟩
    · rw [h1]; exact hne.1
    · rw [h1]; intro x hx
      rw [List.mem_singleton] at hx
      exact hx ▸ hnem
  · rw [(runEffects_logs t p c).1]; exact hne.2

theorem inv_editEv (t : Nat) (c : String) (s : EngineState) (hs : Inv s) :
    Inv (editEv t c s) := by
  unfold editEv
  split_ifs
  · exact hs
  · exact inv_runEffects t s _ hs.1 hs.2.2 hs.2.1

theorem inv_undoEv (t : Nat) (s : EngineState) (hs : Inv s) :
    Inv (undoEv t s) := by
  unfold undoEv
  split_ifs with hg
  · refine inv_runEffects t s _ ⟨hs.1.1, fun hn => ?_⟩ hs.2.2 hs.2.1
    have := hs.1.2 hn
    constructor
    · show (0 : Int) ≤ s.historyIndex - 1
      omega
    · show s.historyIndex - 1 < (s.history.length : Int)
      omega
  · exact hs

theorem inv_redoEv (t : Nat) (s : EngineState) (hs : Inv s) :
    Inv (redoEv t s) := by
  unfold redoEv
  split_ifs with hg
  · refine inv_runEffects t s _ ⟨hs.1.1, fun hn => ?_⟩ hs.2.2 hs.2.1
    have := hs.1.2 hn
    constructor
    · show (0 : Int) ≤ s.historyIndex + 1
      omega
    · show s.historyIndex + 1 < (s.history.length : Int)
      omega
  · exact hs

theorem inv_saveEv (t : Nat) (s : EngineState) (hs : Inv s) :
    Inv (saveEv t s) := by
  unfold saveEv
  cases s.creation
  · exact hs
  · exact inv_runEffects t s _ hs.1 ⟨hs.2.2.1, hs.2.2.2⟩ hs.2.1

theorem inv_loadEv (t : Nat) (c : Creation) (s : EngineState) (hs : Inv s) :
    Inv (loadEv t c s) := by
  exact inv_runEffects t s _ hs.1 hs.2.2 hs.2.1

theorem inv_firePreview (s : EngineState) (pt : PreviewTimer) (hs : Inv s) :
    Inv (firePreview s pt) := by
  unfold firePreview
  dsimp only
  cases pt.artifact <;> dsimp only <;> split_ifs <;>
    exact inv_runEffects _ s _ hs.1 hs.2.2 hs.2.1

theorem inv_fireSnapshot (s : EngineState) (st : SnapshotTimer)
    (hs : Inv s) (hpend : s.snapshotTimer = some st) :
    Inv (fireSnapshot s st) := by
  by_cases hg : st.code ≠ "" ∧ 0 < st.hist.length ∧
      snapAt st.hist st.histIdx ≠ some st.code
  case neg =>
    unfold fireSnapshot
    dsimp only
    rw [if_neg hg]
    refine ⟨hs.1, ?_, hs.2.2⟩
    intro st' h
    cases h
  obtain ⟨hcode, hlen, _⟩ := hg
  obtain ⟨⟨hb1, hb2⟩, hcpl, hne1, hne2⟩ := hs
  obtain ⟨hc1, hc2, hc3⟩ := hcpl st hpend
  have hnil : s.history ≠ [] := by
    rw [← hc2]; exact List.length_pos.mp hlen
  have hidx := hb2 hnil
  have htk : (s.history.take (st.histIdx + 1).toNat).length
      = s.historyIndex.toNat + 1 := by
    rw [List.length_take]
    omega
  have hplen : (s.history.take (st.histIdx + 1).toNat ++ [st.code]).length
      = s.historyIndex.toNat + 2 := by
    rw [List.length_append, htk, List.length_singleton]
  unfold fireSnapshot
  dsimp only
  rw [if_pos ⟨hcode, hlen, ‹snapAt st.hist st.histIdx ≠ some st.code›⟩]
  apply inv_runEffects
  · refine ⟨?_, fun _ => ?_⟩
    · dsimp only
      split_ifs with hcap
      · rw [List.length_drop, hplen]
        rw [hplen] at hcap
        simp only [historyCap] at hb1 hcap ⊢
        omega
      · rw [hplen]
        rw [hplen] at hcap
        simp only [historyCap] at hb1 hcap ⊢
        omega
    · dsimp only
      split_ifs with hcap
      · rw [List.length_drop, hplen]
        rw [hplen] at hcap
        simp only [historyCap] at hb1 hcap
        constructor <;> omega
      · rw [hplen]
        rw [hplen] at hcap
        simp only [historyCap] at hb1 hcap
        constructor <;> omega
  · constructor
    · intro x hx
      dsimp only at hx
      split_ifs at hx with hcap
      · have hsub := List.drop_subset 1 _ hx
        rcases List.mem_append.mp hsub with h | h
        · exact hne1 x (List.take_subset _ _ h)
        · rw [List.mem_singleton] at h; exact h ▸ hcode
      · rcases List.mem_append.mp hx with h | h
        · exact hne1 x (List.take_subset _ _ h)
        · rw [List.mem_singleton] at h; exact h ▸ hcode
    · intro pr hpr
      dsimp only at hpr
      rcases List.mem_cons.mp hpr with h | h
      · rw [h]; exact hcode
      · exact hne2 pr h
  · intro st' h
    cases h

/-- The timer returned by `nextFire` as a snapshot firing is the pending
snapshot timer. -/
theorem nextFire_inr (T : Nat) (s : EngineState) (st : SnapshotTimer)
    (h : nextFire T s = some (Sum.inr st)) : s.snapshotTimer = some st := by
  unfold nextFire at h
  cases hp : s.previewTimer <;> cases hsn : s.snapshotTimer <;>
    rw [hp, hsn] at h <;> dsimp only at h
  · cases h
  · split_ifs at h <;> cases h; rfl
  · split_ifs at h <;> cases h
  · split_ifs at h <;> cases h; rfl

theorem inv_elapse (T : Nat) (fuel : Nat) (s : EngineState) (hs : Inv s) :
    Inv (elapse T fuel s) := by
  induction fuel generalizing s with
  | zero => exact hs
  | succ n ih =>
      unfold elapse
      cases hnf : nextFire T s with
      | none => exact hs
      | some x =>
          cases x with
          | inl pt => exact ih _ (inv_firePreview s pt hs)
          | inr st => exact ih _ (inv_fireSnapshot s st hs (nextFire_inr T s st hnf))

theorem inv_applyEv (t : Nat) (e : Ev) (s : EngineState) (hs : Inv s) :
    Inv (applyEv t e s) := by
  cases e with
  | load c => exact inv_loadEv t c s hs
  | edit c => exact inv_editEv t c s hs
  | undo => exact inv_undoEv t s hs
  | redo => exact inv_redoEv t s hs
  | save => exact inv_saveEv t s hs

theorem inv_run (evs : List (Nat × Ev)) (s : EngineState) (hs : Inv s) :
    Inv (run s evs) := by
  induction evs generalizing s with
  | nil => exact hs
  | cons pr rest ih =>
      exact ih _ (inv_applyEv pr.1 pr.2 _ (inv_elapse pr.1 fuelN s hs))

/-- When applicable, `handleUndo` decrements the index by one. -/
theorem undoEv_historyIndex (t : Nat) (s : EngineState) (hg : 0 < s.historyIndex) :
    (undoEv t s).historyIndex = s.historyIndex - 1 := by
  unfold undoEv
  rw [if_pos hg]
  dsimp only
  exact (runEffects_of_creation_eq t s
    { s with isInternalChange := true, historyIndex := s.historyIndex - 1,
             editableCode := (snapAt s.history (s.historyIndex - 1)).getD "" } rfl).2.2.2.1

/-- When applicable, `handleRedo` increments the index by one. -/
theorem redoEv_historyIndex (t : Nat) (s : EngineState)
    (hg : s.historyIndex < (s.history.length : Int) - 1) :
    (redoEv t s).historyIndex = s.historyIndex + 1 := by
  unfold redoEv
  rw [if_pos hg]
  dsimp only
  exact (runEffects_of_creation_eq t s
    { s with isInternalChange := true, historyIndex := s.historyIndex + 1,
             editableCode := (snapAt s.history (s.historyIndex + 1)).getD "" } rfl).2.2.2.1

/-- `handleUndo` / `handleRedo` leave history untouched and, when
applicable, set the buffer to the snapshot at the new index. -/
theorem undoEv_fields (t : Nat) (s : EngineState) (hg : 0 < s.historyIndex) :
    (undoEv t s).history = s.history ∧
    (undoEv t s).editableCode = (snapAt s.history (s.historyIndex - 1)).getD "" := by
  unfold undoEv
  rw [if_pos hg]
  dsimp only
  have h := runEffects_of_creation_eq t s
    { s with isInternalChange := true, historyIndex := s.historyIndex - 1,
             editableCode := (snapAt s.history (s.historyIndex - 1)).getD "" } rfl
  exact ⟨h.2.2.1, h.1⟩

theorem redoEv_fields (t : Nat) (s : EngineState)
    (hg : s.historyIndex < (s.history.length : Int) - 1) :
    (redoEv t s).history = s.history ∧
    (redoEv t s).editableCode = (snapAt s.history (s.historyIndex + 1)).getD "" := by
  unfold redoEv
  rw [if_pos hg]
  dsimp only
  have h := runEffects_of_creation_eq t s
    { s with isInternalChange := true, historyIndex := s.historyIndex + 1,
             editableCode := (snapAt s.history (s.historyIndex + 1)).getD "" } rfl
  exact ⟨h.2.2.1, h.1⟩

/-! ## Concrete scenario states used by counterexamples and witnesses -/

/-- A quiescent state: artifact `artA` loaded at time 0, all timers fired. -/
def q0 : EngineState := elapse 2000 fuelN (run initState [(0, Ev.load artA)])

/-! ## C2 -/

/-- C2 (confirmed): loading an artifact with content `"A"`, editing to
`"AB"` and letting the snapshot delay elapse yields history `["A", "AB"]`
with index 1; `undo` then restores buffer `"A"` at index 0 and `redo`
restores buffer `"AB"` at index 1. -/
theorem c2_scenario :
    (elapse 3000 fuelN (run initState [(0, Ev.load artA), (100, Ev.edit "AB")])).history
        = ["A", "AB"] ∧
    (elapse 3000 fuelN (run initState [(0, Ev.load artA), (100, Ev.edit "AB")])).historyIndex
        = 1 ∧
    (undoEv 5000 (elapse 3000 fuelN
        (run initState [(0, Ev.load artA), (100, Ev.edit "AB")]))).editableCode = "A" ∧
    (undoEv 5000 (elapse 3000 fuelN
        (run initState [(0, Ev.load artA), (100, Ev.edit "AB")]))).historyIndex = 0 ∧
    (redoEv 5100 (undoEv 5000 (elapse 3000 fuelN
        (run initState [(0, Ev.load artA), (100, Ev.edit "AB")])))).editableCode = "AB" ∧
    (redoEv 5100 (undoEv 5000 (elapse 3000 fuelN
        (run initState [(0, Ev.load artA), (100, Ev.edit "AB")])))).historyIndex = 1 := by
  decide

/-! ## C1 counterexample -/

/-- C1 (refuted as stated): a burst whose inter-edit gap is 900ms — smaller
than the snapshot delay `Ds` = 1000ms — produces TWO persistence calls, the
first with the intermediate content `"AB"` (the preview-sync delay `Dp` =
800ms elapses between the edits), and NO snapshot push at all (the burst
ends back at the current snapshot `"A"`). -/
theorem c1_counterexample :
    (2900 - 2000 < Ds) ∧
    (elapse 6000 fuelN (run initState
        [(0, Ev.load artA), (2000, Ev.edit "AB"), (2900, Ev.edit "A")])).persistLog.map
          (fun p => (p.1, p.2.html)) = [(3700, "A"), (2800, "AB")] ∧
    (elapse 6000 fuelN (run initState
        [(0, Ev.load artA), (2000, Ev.edit "AB"), (2900, Ev.edit "A")])).pushLog = [] := by
  decide

/-! ## C4 counterexample -/

/-- C4 (refuted as stated): after an edit at t=2000 and `manualSave()` at
t=2100 (before the preview-sync delay elapses), the save flushes the content
and timestamp, but the sync-status indicator does NOT transition to `Synced`:
`isSyncing` stays `true` for ever, because `handleSave` never clears it and
the effect re-run cancels the pending preview timer whose callback would
have cleared it. -/
theorem c4_counterexample :
    (elapse 5000 fuelN (run initState
        [(0, Ev.load artA), (2000, Ev.edit "AB"), (2100, Ev.save)])).isSyncing = true ∧
    (elapse 5000 fuelN (run initState
        [(0, Ev.load artA), (2000, Ev.edit "AB"), (2100, Ev.save)])).previewTimer = none ∧
    (elapse 5000 fuelN (run initState
        [(0, Ev.load artA), (2000, Ev.edit "AB"), (2100, Ev.save)])).debouncedCode = "AB" ∧
    (elapse 5000 fuelN (run initState
        [(0, Ev.load artA), (2000, Ev.edit "AB"), (2100, Ev.save)])).lastSaved = some 2100 := by
  decide

/-! ## C5 counterexample -/

/-- C5 (refuted as stated): loading an artifact whose content is the empty
string does NOT reset the engine: `if (creation?.html)` is falsy for `""`,
so after loading an empty artifact over a loaded `"A"` artifact the buffer,
stabilized content and history still hold the old artifact's data instead of
`Buffer = "" ` and `History = [""]`. -/
theorem c5_counterexample :
    (loadEv 3000 ⟨"b2", "art2", "", 5⟩ q0).history = ["A"] ∧
    (loadEv 3000 ⟨"b2", "art2", "", 5⟩ q0).editableCode = "A" ∧
    (loadEv 3000 ⟨"b2", "art2", "", 5⟩ q0).debouncedCode = "A" ∧
    (loadEv 3000 ⟨"b2", "art2", "", 5⟩ q0).prevCreationId = some "b2" ∧
    ¬ (loadEv 3000 ⟨"b2", "art2", "", 5⟩ q0).history = [""] := by
  decide

/-! ## C6 counterexample -/

/-- C6 (refuted as stated): with history `["A", "AB"]` at index 1 and an
unsettled edit `"ABC"` in the buffer, `undo()` is applicable, but
`undo()` followed immediately by `redo()` yields buffer `"AB"`, not the
pre-undo content `"ABC"` — the unsettled edit never entered the history
(its snapshot timer was cancelled by the undo) and is lost. -/
theorem c6_counterexample :
    (editEv 3000 "ABC" (elapse 3000 fuelN
        (run initState [(0, Ev.load artA), (100, Ev.edit "AB")]))).editableCode = "ABC" ∧
    0 < (editEv 3000 "ABC" (elapse 3000 fuelN
        (run initState [(0, Ev.load artA), (100, Ev.edit "AB")]))).historyIndex ∧
    (redoEv 3200 (undoEv 3100 (editEv 3000 "ABC" (elapse 3000 fuelN
        (run initState [(0, Ev.load artA), (100, Ev.edit "AB")]))))).editableCode = "AB" ∧
    ¬ (redoEv 3200 (undoEv 3100 (editEv 3000 "ABC" (elapse 3000 fuelN
        (run initState [(0, Ev.load artA), (100, Ev.edit "AB")]))))).editableCode = "ABC" := by
  decide

/-! ## C7 counterexample -/

/-- C7 (refuted as stated): after loading `"A"` and editing the buffer to
the empty string, the snapshot-capture firing at t=3000 has provenance
`User` (`isInternalChange` is false) and the buffer `""` differs from the
current snapshot `"A"`, yet no push happens: the guard
`editableCode && ...` also requires a non-empty buffer. -/
theorem c7_counterexample :
    (elapse 5000 fuelN (run initState
        [(0, Ev.load artA), (2000, Ev.edit "")])).pushLog = [] ∧
    (elapse 5000 fuelN (run initState
        [(0, Ev.load artA), (2000, Ev.edit "")])).history = ["A"] ∧
    (elapse 5000 fuelN (run initState
        [(0, Ev.load artA), (2000, Ev.edit "")])).historyIndex = 0 ∧
    (elapse 5000 fuelN (run initState
        [(0, Ev.load artA), (2000, Ev.edit "")])).editableCode = "" ∧
    (elapse 5000 fuelN (run initState
        [(0, Ev.load artA), (2000, Ev.edit "")])).isInternalChange = false := by
  decide

/-! ## C8 -/

/-- C8 (refuted as stated): the re-instantiation key is the length of the
stabilized content, so the two different contents `"ab"` and `"cd"` share
one key and a change between them does not force a fresh sandboxed
context. -/
theorem c8_counterexample :
    previewKey "ab" = previewKey "cd" ∧ "ab" ≠ "cd" := by
  decide

/-- C8 (amended): the key derived from the stabilized content coincides for
two contents exactly when their lengths coincide — equal content always
yields an equal key, but distinct contents of equal length also share a key
and only a length change forces re-instantiation. -/
theorem c8_preview_key_amended (a b : String) :
    previewKey a = previewKey b ↔ a.length = b.length := by
  simp [previewKey]

/-! ## C9 -/

/-- C9 (code bug): both preview iframes carry the sandbox token
`allow-same-origin` in addition to `allow-scripts`, `allow-forms`,
`allow-popups` and `allow-modals`.  Together with `allow-scripts` this
gives the rendered content a same-origin (same-process) trust boundary
with the host application, contradicting the spec's render-boundary
requirement that the four listed capabilities are the only ones granted. -/
theorem c9_sandbox_tokens :
    "allow-same-origin" ∈ editorSandboxTokens ∧
    "allow-scripts" ∈ editorSandboxTokens ∧
    "allow-same-origin" ∈ fullSandboxTokens ∧
    "allow-scripts" ∈ fullSandboxTokens ∧
    editorSandboxTokens ≠
      ["allow-scripts", "allow-forms", "allow-popups", "allow-modals"] := by
  decide

/-! ## C3 -/

/-- C3 (confirmed): over every event sequence from the initial state, the
history never exceeds 100 entries and carries a valid index whenever it is
non-empty; `handleUndo` changes the state exactly when `index > 0` and
`handleRedo` exactly when `index < length - 1` (matching the buttons'
disabled conditions); and a snapshot push that would exceed the capacity
evicts the oldest entry while the index stays at 99, so the current
position — the freshly pushed entry — is preserved relative to the
window. -/
theorem c3_history_invariants (evs : List (Nat × Ev)) :
    (run initState evs).history.length ≤ 100 ∧
    ((run initState evs).history ≠ [] →
      0 ≤ (run initState evs).historyIndex ∧
      (run initState evs).historyIndex < ((run initState evs).history.length : Int)) ∧
    (∀ t, undoEv t (run initState evs) ≠ run initState evs ↔
      0 < (run initState evs).historyIndex) ∧
    (∀ t, redoEv t (run initState evs) ≠ run initState evs ↔
      (run initState evs).historyIndex < ((run initState evs).history.length : Int) - 1) ∧
    (∀ st, (run initState evs).snapshotTimer = some st →
      st.code ≠ "" → snapAt st.hist st.histIdx ≠ some st.code → 0 < st.hist.length →
      (run initState evs).history.length = 100 →
      (run initState evs).historyIndex = 99 →
      (fireSnapshot (run initState evs) st).history
          = (run initState evs).history.drop 1 ++ [st.code] ∧
      (fireSnapshot (run initState evs) st).historyIndex = 99 ∧
      (fireSnapshot (run initState evs) st).history.length = 100) := by
  obtain ⟨⟨hb1, hb2⟩, hcpl, hne⟩ := inv_run evs initState inv_initState
  refine ⟨by simpa [historyCap] using hb1, hb2, ?_, ?_, ?_⟩
  · intro t
    constructor
    · intro hne0
      by_contra hle
      push_neg at hle
      exact hne0 (by unfold undoEv; rw [if_neg (by omega)])
    · intro hg heq
      have h := undoEv_historyIndex t _ hg
      rw [heq] at h
      omega
  · intro t
    constructor
    · intro hne0
      by_contra hle
      push_neg at hle
      exact hne0 (by unfold redoEv; rw [if_neg (by omega)])
    · intro hg heq
      have h := redoEv_historyIndex t _ hg
      rw [heq] at h
      omega
  · intro st hpend hcode hdiff hstlen hlen100 hidx99
    obtain ⟨hc1, hc2, hc3⟩ := hcpl st hpend
    have hn : (st.histIdx + 1).toNat = 100 := by omega
    have htake : (run initState evs).history.take (st.histIdx + 1).toNat
        = (run initState evs).history :=
      List.take_of_length_le (by omega)
    unfold fireSnapshot
    dsimp only
    rw [if_pos ⟨hcode, hstlen, hdiff⟩, htake]
    have hcap : historyCap < ((run initState evs).history ++ [st.code]).length := by
      rw [List.length_append, hlen100]
      simp [historyCap]
    rw [if_pos hcap]
    have hdrop : ((run initState evs).history ++ [st.code]).drop 1
        = (run initState evs).history.drop 1 ++ [st.code] :=
      List.drop_append_of_le_length (by omega)
    have hmin : min ((run initState evs).historyIndex + 1) 99 = 99 := by
      rw [hidx99]
      decide
    have hre := runEffects_of_creation_eq st.deadline (run initState evs)
      { run initState evs with
          snapshotTimer := none,
          history := ((run initState evs).history ++ [st.code]).drop 1,
          historyIndex := min ((run initState evs).historyIndex + 1) 99,
          pushLog := (st.deadline, st.code) :: (run initState evs).pushLog } rfl
    refine ⟨hre.2.2.1.trans ?_, hre.2.2.2.1.trans ?_, ?_⟩
    · exact hdrop
    · exact hmin
    · rw [hre.2.2.1, hdrop]
      simp [hlen100]

/-- C3 witness: instantiated on a single load of `artA`, where the history
is non-empty, the index bounds hold. -/
theorem c3_history_invariants_witness :
    (run initState [(0, Ev.load artA)]).history ≠ [] ∧
    0 ≤ (run initState [(0, Ev.load artA)]).historyIndex ∧
    (run initState [(0, Ev.load artA)]).historyIndex <
      ((run initState [(0, Ev.load artA)]).history.length : Int) :=
  ⟨by decide, (c3_history_invariants [(0, Ev.load artA)]).2.1 (by decide)⟩

/-! ## C10 -/

/-- C10 (confirmed): every entry of the history stack is a non-empty
string, and no snapshot push ever carries the empty string — the load
effect seeds the stack only from truthy (non-empty) artifact content and
the snapshot-capture guard `editableCode && ...` rejects an empty
buffer. -/
theorem c10_nonempty_entries (evs : List (Nat × Ev)) :
    (∀ x ∈ (run initState evs).history, x ≠ "") ∧
    (∀ pr ∈ (run initState evs).pushLog, pr.2 ≠ "") :=
  (inv_run evs initState inv_initState).2.2

/-- C10 witness: after loading `artA`, the entry `"A"` of the history is
non-empty. -/
theorem c10_nonempty_entries_witness :
    "A" ∈ (run initState [(0, Ev.load artA)]).history ∧ "A" ≠ "" :=
  ⟨by decide, (c10_nonempty_entries [(0, Ev.load artA)]).1 "A" (by decide)⟩

/-! ## C4 amended -/

/-- The effect pipeline after a state change that keeps the buffer equal to
the stabilized copy, keeps history/index, but replaces the artifact (as
`handleSave` does): the only further change is that the pending preview
timer is cancelled. -/
theorem runEffects_save_shape (t : Nat) (p c : EngineState)
    (hed : c.editableCode = p.editableCode)
    (hdb : c.debouncedCode = c.editableCode)
    (hh : c.history = p.history) (hhi : c.historyIndex = p.historyIndex)
    (hcr : ¬ c.creation = p.creation)
    (hno : ∀ x : EngineState, x.creation = c.creation →
        x.prevCreationId = c.prevCreationId → runLoadEffect x = x) :
    runEffects t p c = { c with previewTimer := none } := by
  have hc1 : ¬ (c.editableCode = p.editableCode ∧ c.debouncedCode = p.debouncedCode ∧
      c.creation = p.creation) := fun h => hcr h.2.2
  unfold runEffects effectsPass1
  dsimp only
  rw [if_neg hc1]
  rw [show runPreviewEffect t c = { c with previewTimer := none } from by
        unfold runPreviewEffect
        rw [if_pos hdb.symm]]
  have hs1 : c.editableCode = p.editableCode ∧ c.history = p.history ∧
      c.historyIndex = p.historyIndex := ⟨hed, hh, hhi⟩
  rw [if_pos hs1]
  rw [if_neg hcr]
  rw [hno { c with previewTimer := none } rfl rfl]
  have h4 : ({ c with previewTimer := none } : EngineState).editableCode
        = c.editableCode ∧
      ({ c with previewTimer := none } : EngineState).debouncedCode
        = c.debouncedCode := ⟨rfl, rfl⟩
  have h5 : ({ c with previewTimer := none } : EngineState).editableCode
        = c.editableCode ∧
      ({ c with previewTimer := none } : EngineState).history = c.history ∧
      ({ c with previewTimer := none } : EngineState).historyIndex
        = c.historyIndex := ⟨rfl, rfl, rfl⟩
  rw [if_pos h4, if_pos h5]

/-- `handleSave` in closed form (for a loaded artifact whose stored
timestamp differs from the save time): it persists unconditionally,
stabilizes the buffer, stamps `lastSaved`, cancels the preview timer — and
touches nothing else; in particular `isSyncing` and the pending snapshot
timer are left as they were. -/
theorem saveEv_eq (s : EngineState) (t : Nat) (cr : Creation)
    (hc : s.creation = some cr) (hid : s.prevCreationId = some cr.id)
    (ht : cr.timestamp ≠ t) :
    saveEv t s =
      { s with creation := some { cr with html := s.editableCode, timestamp := t },
               persistLog := (t, { cr with html := s.editableCode, timestamp := t })
                   :: s.persistLog,
               lastSaved := some t,
               debouncedCode := s.editableCode,
               renderLog := if s.editableCode = s.debouncedCode then s.renderLog
                            else (t, s.editableCode) :: s.renderLog,
               previewTimer := none } := by
  unfold saveEv
  rw [hc]
  dsimp only
  refine Eq.trans (runEffects_save_shape t s
    { s with creation := some { cr with html := s.editableCode, timestamp := t },
             persistLog := (t, { cr with html := s.editableCode, timestamp := t })
                 :: s.persistLog,
             lastSaved := some t,
             debouncedCode := s.editableCode,
             renderLog := if s.editableCode = s.debouncedCode then s.renderLog
                          else (t, s.editableCode) :: s.renderLog }
    rfl rfl rfl rfl ?_ ?_) rfl
  · intro h
    rw [hc] at h
    exact ht (congrArg Creation.timestamp (Option.some.inj h)).symm
  · intro x h1 h2
    unfold runLoadEffect
    rw [h1]
    dsimp only
    rw [if_pos (h2.trans hid)]

/-- C4 (amended): `manualSave()` immediately sets StabilizedContent =
Buffer, stamps the persisted timestamp, and invokes the Persistence Bridge
unconditionally — even when the content equals the last persisted content —
and it cancels the pending preview-sync timer while leaving the snapshot
timer pending; but the sync-status indicator does NOT transition to
`Synced`: `isSyncing` is left unchanged, so a save during an in-flight
burst leaves the indicator on `Syncing`. -/
theorem c4_manual_save_amended (s : EngineState) (t : Nat) (cr : Creation)
    (hc : s.creation = some cr) (hid : s.prevCreationId = some cr.id)
    (ht : cr.timestamp ≠ t) :
    (saveEv t s).debouncedCode = s.editableCode ∧
    (saveEv t s).lastSaved = some t ∧
    (saveEv t s).persistLog
        = (t, { cr with html := s.editableCode, timestamp := t }) :: s.persistLog ∧
    (saveEv t s).previewTimer = none ∧
    (saveEv t s).snapshotTimer = s.snapshotTimer ∧
    (saveEv t s).isSyncing = s.isSyncing := by
  rw [saveEv_eq s t cr hc hid ht]
  exact ⟨rfl, rfl, rfl, rfl, rfl, rfl⟩

/-- C4 witness: a save at t=2100 into an unsettled edit of `q0`. -/
theorem c4_manual_save_amended_witness :
    (editEv 2000 "AB" q0).creation = some artA ∧
    (saveEv 2100 (editEv 2000 "AB" q0)).debouncedCode
        = (editEv 2000 "AB" q0).editableCode ∧
    (saveEv 2100 (editEv 2000 "AB" q0)).lastSaved = some 2100 ∧
    (saveEv 2100 (editEv 2000 "AB" q0)).isSyncing
        = (editEv 2000 "AB" q0).isSyncing := by
  have h := c4_manual_save_amended (editEv 2000 "AB" q0) 2100 artA
      (by decide) (by decide) (by decide)
  exact ⟨by decide, h.1, h.2.1, h.2.2.2.2.2⟩

/-! ## C5 amended -/

/-- The load effect leaves buffer, stabilized content, history and index
untouched when the incoming artifact content is empty. -/
theorem runLoadEffect_empty_html (x : EngineState) (c : Creation)
    (hx : x.creation = some c) (he : c.html = "") :
    (runLoadEffect x).editableCode = x.editableCode ∧
    (runLoadEffect x).debouncedCode = x.debouncedCode ∧
    (runLoadEffect x).history = x.history ∧
    (runLoadEffect x).historyIndex = x.historyIndex := by
  unfold runLoadEffect
  rw [hx]
  dsimp only
  split_ifs with h1 h2
  · exact ⟨rfl, rfl, rfl, rfl⟩
  · exact absurd he h2
  · exact ⟨rfl, rfl, rfl, rfl⟩

/-- If the load effect would preserve buffer, stabilized content, history
and index on every state carrying the new artifact, so does the whole
effect pipeline. -/
theorem runEffects_buffer_fields (t : Nat) (p c : EngineState)
    (hpres : ∀ x : EngineState, x.creation = c.creation →
        (runLoadEffect x).editableCode = x.editableCode ∧
        (runLoadEffect x).debouncedCode = x.debouncedCode ∧
        (runLoadEffect x).history = x.history ∧
        (runLoadEffect x).historyIndex = x.historyIndex) :
    (runEffects t p c).editableCode = c.editableCode ∧
    (runEffects t p c).debouncedCode = c.debouncedCode ∧
    (runEffects t p c).history = c.history ∧
    (runEffects t p c).historyIndex = c.historyIndex := by
  unfold runEffects effectsPass1
  dsimp only
  split_ifs <;> refine ⟨?_, ?_, ?_, ?_⟩ <;>
    simp_all [previewEffect_fields, snapshotEffect_fields]

/-- C5 (amended): loading an artifact whose content is the empty string
does NOT reset the engine: the truthiness guard `if (creation?.html)`
skips the reseed, so Buffer, StabilizedContent, the History Stack and its
index are all left exactly as they were (only the tracked artifact
identity changes).  Only a non-empty content reseeds the stack. -/
theorem c5_empty_load_amended (s : EngineState) (t : Nat) (c : Creation)
    (he : c.html = "") :
    (loadEv t c s).editableCode = s.editableCode ∧
    (loadEv t c s).debouncedCode = s.debouncedCode ∧
    (loadEv t c s).history = s.history ∧
    (loadEv t c s).historyIndex = s.historyIndex := by
  unfold loadEv
  exact runEffects_buffer_fields t s _
    (fun x hx => runLoadEffect_empty_html x c hx he)

/-- C5 witness: loading an empty artifact over the loaded `"A"` artifact. -/
theorem c5_empty_load_amended_witness :
    (loadEv 3000 ⟨"b3", "e", "", 7⟩ q0).history = q0.history ∧
    (loadEv 3000 ⟨"b3", "e", "", 7⟩ q0).editableCode = q0.editableCode :=
  ⟨(c5_empty_load_amended q0 3000 ⟨"b3", "e", "", 7⟩ rfl).2.2.1,
   (c5_empty_load_amended q0 3000 ⟨"b3", "e", "", 7⟩ rfl).1⟩

/-! ## C6 amended -/

/-- C6 (amended): when `undo()` is applicable AND the buffer agrees with
the snapshot at the current history index (no unsettled edit in flight),
`undo()` followed immediately by `redo()` restores the buffer and the
index exactly. -/
theorem c6_undo_redo_amended (s : EngineState) (t t' : Nat)
    (hidx : 0 < s.historyIndex)
    (hlen : s.historyIndex < (s.history.length : Int))
    (hbuf : snapAt s.history s.historyIndex = some s.editableCode) :
    (redoEv t' (undoEv t s)).editableCode = s.editableCode ∧
    (redoEv t' (undoEv t s)).historyIndex = s.historyIndex := by
  have hu1 := undoEv_historyIndex t s hidx
  have hu2 := (undoEv_fields t s hidx).1
  have hg' : (undoEv t s).historyIndex
      < ((undoEv t s).history.length : Int) - 1 := by
    rw [hu1, hu2]
    omega
  have hr1 := redoEv_historyIndex t' _ hg'
  have hr2 := (redoEv_fields t' _ hg').2
  rw [hr1, hr2, hu1, hu2]
  have hstep : s.historyIndex - 1 + 1 = s.historyIndex := by omega
  rw [hstep, hbuf]
  exact ⟨rfl, rfl⟩

/-- C6 witness: undo/redo on the settled state with history
`["A", "AB"]`. -/
theorem c6_undo_redo_amended_witness :
    (redoEv 5100 (undoEv 5000 (elapse 3000 fuelN
        (run initState [(0, Ev.load artA), (100, Ev.edit "AB")])))).editableCode
      = "AB" ∧
    (redoEv 5100 (undoEv 5000 (elapse 3000 fuelN
        (run initState [(0, Ev.load artA), (100, Ev.edit "AB")])))).historyIndex
      = 1 := by
  have h := c6_undo_redo_amended (elapse 3000 fuelN
      (run initState [(0, Ev.load artA), (100, Ev.edit "AB")])) 5000 5100
      (by decide) (by decide) (by decide)
  exact ⟨h.1.trans (by decide), h.2.trans (by decide)⟩

/-! ## C7 amended -/

/-- The effect pipeline after a mutation tagged `History` (the provenance
flag set, the index changed, the artifact untouched): the snapshot effect
consumes the flag, cancels any pending capture and arms none — nothing is
ever pushed for this mutation. -/
theorem runEffects_consume_flag (t : Nat) (p c : EngineState)
    (hflag : c.isInternalChange = true)
    (hne : ¬ c.historyIndex = p.historyIndex)
    (hcr : c.creation = p.creation) :
    (runEffects t p c).snapshotTimer = none ∧
    (runEffects t p c).isInternalChange = false := by
  have hsnap : ∀ x : EngineState, x.isInternalChange = true →
      runSnapshotEffect t x
        = { x with isInternalChange := false, snapshotTimer := none } := by
    intro x hx
    unfold runSnapshotEffect
    rw [if_pos hx]
  have hs1 : ¬ (c.editableCode = p.editableCode ∧ c.history = p.history ∧
      c.historyIndex = p.historyIndex) := fun h => hne h.2.2
  unfold runEffects effectsPass1
  dsimp only
  rw [if_neg hs1]
  by_cases h1 : c.editableCode = p.editableCode ∧ c.debouncedCode = p.debouncedCode ∧
      c.creation = p.creation
  · rw [if_pos h1, hsnap c hflag, if_pos hcr]
    have h4 : ({ c with isInternalChange := false, snapshotTimer := none }
          : EngineState).editableCode = c.editableCode ∧
        ({ c with isInternalChange := false, snapshotTimer := none }
          : EngineState).debouncedCode = c.debouncedCode := ⟨rfl, rfl⟩
    have h5 : ({ c with isInternalChange := false, snapshotTimer := none }
          : EngineState).editableCode = c.editableCode ∧
        ({ c with isInternalChange := false, snapshotTimer := none }
          : EngineState).history = c.history ∧
        ({ c with isInternalChange := false, snapshotTimer := none }
          : EngineState).historyIndex = c.historyIndex := ⟨rfl, rfl, rfl⟩
    rw [if_pos h4, if_pos h5]
    exact ⟨rfl, rfl⟩
  · rw [if_neg h1, if_pos hcr]
    have hx : (runPreviewEffect t c).isInternalChange = true :=
      ((previewEffect_fields t c).2.2.2.2.2.1).trans hflag
    have hb := hsnap (runPreviewEffect t c) hx
    have h4 : (runSnapshotEffect t (runPreviewEffect t c)).editableCode
          = c.editableCode ∧
        (runSnapshotEffect t (runPreviewEffect t c)).debouncedCode
          = c.debouncedCode :=
      ⟨((snapshotEffect_fields t _).1).trans (previewEffect_fields t c).1,
       ((snapshotEffect_fields t _).2.1).trans (previewEffect_fields t c).2.1⟩
    have h5 : (runSnapshotEffect t (runPreviewEffect t c)).editableCode
          = c.editableCode ∧
        (runSnapshotEffect t (runPreviewEffect t c)).history = c.history ∧
        (runSnapshotEffect t (runPreviewEffect t c)).historyIndex
          = c.historyIndex :=
      ⟨h4.1,
       ((snapshotEffect_fields t _).2.2.2.1).trans
         (previewEffect_fields t c).2.2.2.1,
       ((snapshotEffect_fields t _).2.2.2.2.1).trans
         (previewEffect_fields t c).2.2.2.2.1⟩
    rw [if_pos h4, if_pos h5, hb]
    exact ⟨rfl, rfl⟩

/-- C7 (amended): the snapshot-capture firing pushes a new snapshot exactly
when the captured buffer is NON-EMPTY, the captured history is non-empty,
and the captured buffer differs from the snapshot at the captured index —
the non-emptiness conjuncts are required in addition to the claim's
provenance-and-difference condition; when it pushes, it pushes exactly the
captured buffer.  A mutation of `History` provenance (undo/redo) never
reaches a firing at all: the effect re-run consumes the flag, cancels the
pending capture timer and resets the provenance to `User`. -/
theorem c7_snapshot_gate_amended (s : EngineState) (st : SnapshotTimer) (t : Nat) :
    ((fireSnapshot s st).pushLog ≠ s.pushLog ↔
      (st.code ≠ "" ∧ 0 < st.hist.length ∧
        snapAt st.hist st.histIdx ≠ some st.code)) ∧
    ((fireSnapshot s st).pushLog ≠ s.pushLog →
      (fireSnapshot s st).pushLog = (st.deadline, st.code) :: s.pushLog) ∧
    (0 < s.historyIndex →
      (undoEv t s).snapshotTimer = none ∧ (undoEv t s).isInternalChange = false) ∧
    (s.historyIndex < (s.history.length : Int) - 1 →
      (redoEv t s).snapshotTimer = none ∧ (redoEv t s).isInternalChange = false) := by
  have hpush : ∀ _ : st.code ≠ "" ∧ 0 < st.hist.length ∧
      snapAt st.hist st.histIdx ≠ some st.code,
      (fireSnapshot s st).pushLog = (st.deadline, st.code) :: s.pushLog := by
    intro hg
    unfold fireSnapshot
    dsimp only
    rw [if_pos hg]
    exact (runEffects_logs _ _ _).1
  have hnopush : ∀ _ : ¬ (st.code ≠ "" ∧ 0 < st.hist.length ∧
      snapAt st.hist st.histIdx ≠ some st.code),
      (fireSnapshot s st).pushLog = s.pushLog := by
    intro h
    unfold fireSnapshot
    dsimp only
    rw [if_neg h]
  refine ⟨⟨?_, ?_⟩, ?_, ?_, ?_⟩
  · intro hne
    by_contra h
    exact hne (hnopush h)
  · intro hg
    rw [hpush hg]
    exact List.cons_ne_self _ _
  · intro hne
    by_cases hg : st.code ≠ "" ∧ 0 < st.hist.length ∧
        snapAt st.hist st.histIdx ≠ some st.code
    · exact hpush hg
    · exact absurd (hnopush hg) hne
  · intro hg
    unfold undoEv
    rw [if_pos hg]
    dsimp only
    exact runEffects_consume_flag t s _ rfl (by dsimp only; omega) rfl
  · intro hg
    unfold redoEv
    rw [if_pos hg]
    dsimp only
    exact runEffects_consume_flag t s _ rfl (by dsimp only; omega) rfl

/-- C7 witness: after undo on the settled two-entry history, no snapshot
timer is pending and the provenance flag is back to `User`. -/
theorem c7_snapshot_gate_amended_witness :
    (undoEv 5000 (elapse 3000 fuelN
        (run initState [(0, Ev.load artA), (100, Ev.edit "AB")]))).snapshotTimer
      = none ∧
    (undoEv 5000 (elapse 3000 fuelN
        (run initState [(0, Ev.load artA), (100, Ev.edit "AB")]))).isInternalChange
      = false :=
  (c7_snapshot_gate_amended _ ⟨0, "x", [], 0⟩ 5000).2.2.1 (by decide)

/-! ## Closed forms for burst analysis (C1) -/

/-- A user edit in closed form (requires an actual change of text and
`User` provenance): the buffer is set, both debounce channels are
re-armed — except that the preview channel is left unarmed when the new
text already equals the stabilized copy. -/
theorem editEv_eq (s : EngineState) (t : Nat) (c : String)
    (hne : c ≠ s.editableCode) (hflag : s.isInternalChange = false) :
    editEv t c s =
      if c = s.debouncedCode then
        { s with editableCode := c, previewTimer := none, snapshotTimer := some ⟨t + Ds, c, s.history, s.historyIndex⟩ }
      else
        { s with editableCode := c, isSyncing := true, previewTimer := some ⟨t + Dp, c, s.creation⟩, snapshotTimer := some ⟨t + Ds, c, s.history, s.historyIndex⟩ } := by
  have hflag' : ¬ (s.isInternalChange = true) := by
    rw [hflag]; exact Bool.false_ne_true
  unfold editEv
  rw [if_neg hne]
  unfold runEffects effectsPass1
  dsimp only
  rw [if_neg (show ¬ (c = s.editableCode ∧ s.debouncedCode = s.debouncedCode ∧ s.creation = s.creation) from fun h => hne h.1)]
  rw [if_neg (show ¬ (c = s.editableCode ∧ s.history = s.history ∧ s.historyIndex = s.historyIndex) from fun h => hne h.1)]
  rw [if_pos (show s.creation = s.creation from rfl)]
  by_cases hdb : c = s.debouncedCode
  · rw [if_pos hdb]
    have ha : runPreviewEffect t { s with editableCode := c } = { s with editableCode := c, previewTimer := none } := by
      unfold runPreviewEffect
      dsimp only
      rw [if_pos hdb]
    rw [ha]
    have hb : runSnapshotEffect t { s with editableCode := c, previewTimer := none } = { s with editableCode := c, previewTimer := none, snapshotTimer := some ⟨t + Ds, c, s.history, s.historyIndex⟩ } := by
      unfold runSnapshotEffect
      dsimp only
      rw [if_neg hflag']
    rw [hb]
    have h4 : ({ s with editableCode := c, previewTimer := none, snapshotTimer := some ⟨t + Ds, c, s.history, s.historyIndex⟩ } : EngineState).editableCode = c ∧ ({ s with editableCode := c, previewTimer := none, snapshotTimer := some ⟨t + Ds, c, s.history, s.historyIndex⟩ } : EngineState).debouncedCode = s.debouncedCode := ⟨rfl, rfl⟩
    have h5 : ({ s with editableCode := c, previewTimer := none, snapshotTimer := some ⟨t + Ds, c, s.history, s.historyIndex⟩ } : EngineState).editableCode = c ∧ ({ s with editableCode := c, previewTimer := none, snapshotTimer := some ⟨t + Ds, c, s.history, s.historyIndex⟩ } : EngineState).history = s.history ∧ ({ s with editableCode := c, previewTimer := none, snapshotTimer := some ⟨t + Ds, c, s.history, s.historyIndex⟩ } : EngineState).historyIndex = s.historyIndex := ⟨rfl, rfl, rfl⟩
    rw [if_pos h4, if_pos h5]
  · rw [if_neg hdb]
    have ha : runPreviewEffect t { s with editableCode := c } = { s with editableCode := c, isSyncing := true, previewTimer := some ⟨t + Dp, c, s.creation⟩ } := by
      unfold runPreviewEffect
      dsimp only
      rw [if_neg hdb]
    rw [ha]
    have hb : runSnapshotEffect t { s with editableCode := c, isSyncing := true, previewTimer := some ⟨t + Dp, c, s.creation⟩ } = { s with editableCode := c, isSyncing := true, previewTimer := some ⟨t + Dp, c, s.creation⟩, snapshotTimer := some ⟨t + Ds, c, s.history, s.historyIndex⟩ } := by
      unfold runSnapshotEffect
      dsimp only
      rw [if_neg hflag']
    rw [hb]
    have h4 : ({ s with editableCode := c, isSyncing := true, previewTimer := some ⟨t + Dp, c, s.creation⟩, snapshotTimer := some ⟨t + Ds, c, s.history, s.historyIndex⟩ } : EngineState).editableCode = c ∧ ({ s with editableCode := c, isSyncing := true, previewTimer := some ⟨t + Dp, c, s.creation⟩, snapshotTimer := some ⟨t + Ds, c, s.history, s.historyIndex⟩ } : EngineState).debouncedCode = s.debouncedCode := ⟨rfl, rfl⟩
    have h5 : ({ s with editableCode := c, isSyncing := true, previewTimer := some ⟨t + Dp, c, s.creation⟩, snapshotTimer := some ⟨t + Ds, c, s.history, s.historyIndex⟩ } : EngineState).editableCode = c ∧ ({ s with editableCode := c, isSyncing := true, previewTimer := some ⟨t + Dp, c, s.creation⟩, snapshotTimer := some ⟨t + Ds, c, s.history, s.historyIndex⟩ } : EngineState).history = s.history ∧ ({ s with editableCode := c, isSyncing := true, previewTimer := some ⟨t + Dp, c, s.creation⟩, snapshotTimer := some ⟨t + Ds, c, s.history, s.historyIndex⟩ } : EngineState).historyIndex = s.historyIndex := ⟨rfl, rfl, rfl⟩
    rw [if_pos h4, if_pos h5]

/-- No due timer means no firing. -/
theorem nextFire_none (T : Nat) (s : EngineState)
    (hp : ∀ pt, s.previewTimer = some pt → T < pt.deadline)
    (hs : ∀ st, s.snapshotTimer = some st → T < st.deadline) :
    nextFire T s = none := by
  unfold nextFire
  cases hpt : s.previewTimer <;> cases hst : s.snapshotTimer <;> dsimp only
  · rw [if_neg (by have := hs _ hst; omega)]
  · rw [if_neg (by have := hp _ hpt; omega)]
  · rw [if_neg (by have := hp _ hpt; intro hand; omega),
        if_neg (by have := hs _ hst; omega)]

theorem elapse_of_none (T : Nat) (fuel : Nat) (s : EngineState)
    (h : nextFire T s = none) : elapse T fuel s = s := by
  cases fuel with
  | zero => rfl
  | succ n =>
      unfold elapse
      rw [h]

theorem elapse_fire_preview (T n : Nat) (s : EngineState) (pt : PreviewTimer)
    (h : nextFire T s = some (Sum.inl pt)) :
    elapse T (n + 1) s = elapse T n (firePreview s pt) := by
  conv_lhs => unfold elapse
  rw [h]

theorem elapse_fire_snapshot (T n : Nat) (s : EngineState) (st : SnapshotTimer)
    (h : nextFire T s = some (Sum.inr st)) :
    elapse T (n + 1) s = elapse T n (fireSnapshot s st) := by
  conv_lhs => unfold elapse
  rw [h]

/-- The preview-sync firing in closed form, in the situation a settled burst
produces: captured buffer equal to the live buffer, different from both the
stabilized copy and the artifact's persisted content.  The callback
stabilizes, invokes the persistence bridge, and the follow-up effect passes
only consume the already-fired preview timer. -/
theorem firePreview_eq (s : EngineState) (pt : PreviewTimer) (cr : Creation)
    (hpt : pt.artifact = some cr) (hne : pt.code ≠ cr.html)
    (hdb : pt.code ≠ s.debouncedCode) (hed : s.editableCode = pt.code)
    (hcre : s.creation = some cr) (hid : s.prevCreationId = some cr.id) :
    firePreview s pt = { s with previewTimer := none, debouncedCode := pt.code, isSyncing := false, renderLog := (pt.deadline, pt.code) :: s.renderLog, creation := some { cr with html := pt.code, timestamp := pt.deadline }, persistLog := (pt.deadline, { cr with html := pt.code, timestamp := pt.deadline }) :: s.persistLog, lastSaved := some pt.deadline } := by
  unfold firePreview
  dsimp only
  rw [hpt]
  dsimp only
  rw [if_neg (show ¬ pt.code = s.debouncedCode from hdb), if_pos hne]
  unfold runEffects effectsPass1
  dsimp only
  rw [if_neg (show ¬ (s.editableCode = s.editableCode ∧ pt.code = s.debouncedCode ∧
      some ({ cr with html := pt.code, timestamp := pt.deadline } : Creation)
        = s.creation) from fun h => hdb h.2.1)]
  have ha : runPreviewEffect pt.deadline { s with previewTimer := none, debouncedCode := pt.code, isSyncing := false, renderLog := (pt.deadline, pt.code) :: s.renderLog, creation := some { cr with html := pt.code, timestamp := pt.deadline }, persistLog := (pt.deadline, { cr with html := pt.code, timestamp := pt.deadline }) :: s.persistLog, lastSaved := some pt.deadline } = { s with previewTimer := none, debouncedCode := pt.code, isSyncing := false, renderLog := (pt.deadline, pt.code) :: s.renderLog, creation := some { cr with html := pt.code, timestamp := pt.deadline }, persistLog := (pt.deadline, { cr with html := pt.code, timestamp := pt.deadline }) :: s.persistLog, lastSaved := some pt.deadline } := by
    unfold runPreviewEffect
    dsimp only
    rw [if_pos (show s.editableCode = pt.code from hed)]
  rw [ha]
  rw [if_pos (show s.editableCode = s.editableCode ∧ s.history = s.history ∧
      s.historyIndex = s.historyIndex from ⟨rfl, rfl, rfl⟩)]
  rw [if_neg (show ¬ (some ({ cr with html := pt.code, timestamp := pt.deadline }
      : Creation) = s.creation) from
      fun h => hne (congrArg Creation.html (Option.some.inj (h.trans hcre))))]
  have hload : runLoadEffect { s with previewTimer := none, debouncedCode := pt.code, isSyncing := false, renderLog := (pt.deadline, pt.code) :: s.renderLog, creation := some { cr with html := pt.code, timestamp := pt.deadline }, persistLog := (pt.deadline, { cr with html := pt.code, timestamp := pt.deadline }) :: s.persistLog, lastSaved := some pt.deadline } = { s with previewTimer := none, debouncedCode := pt.code, isSyncing := false, renderLog := (pt.deadline, pt.code) :: s.renderLog, creation := some { cr with html := pt.code, timestamp := pt.deadline }, persistLog := (pt.deadline, { cr with html := pt.code, timestamp := pt.deadline }) :: s.persistLog, lastSaved := some pt.deadline } := by
    unfold runLoadEffect
    dsimp only
    rw [if_pos (show s.prevCreationId = some cr.id from hid)]
  rw [hload]
  have h4 : ({ s with previewTimer := none, debouncedCode := pt.code, isSyncing := false, renderLog := (pt.deadline, pt.code) :: s.renderLog, creation := some { cr with html := pt.code, timestamp := pt.deadline }, persistLog := (pt.deadline, { cr with html := pt.code, timestamp := pt.deadline }) :: s.persistLog, lastSaved := some pt.deadline } : EngineState).editableCode = s.editableCode ∧
      ({ s with previewTimer := none, debouncedCode := pt.code, isSyncing := false, renderLog := (pt.deadline, pt.code) :: s.renderLog, creation := some { cr with html := pt.code, timestamp := pt.deadline }, persistLog := (pt.deadline, { cr with html := pt.code, timestamp := pt.deadline }) :: s.persistLog, lastSaved := some pt.deadline } : EngineState).debouncedCode = pt.code := ⟨rfl, rfl⟩
  have h5 : ({ s with previewTimer := none, debouncedCode := pt.code, isSyncing := false, renderLog := (pt.deadline, pt.code) :: s.renderLog, creation := some { cr with html := pt.code, timestamp := pt.deadline }, persistLog := (pt.deadline, { cr with html := pt.code, timestamp := pt.deadline }) :: s.persistLog, lastSaved := some pt.deadline } : EngineState).editableCode = s.editableCode ∧
      ({ s with previewTimer := none, debouncedCode := pt.code, isSyncing := false, renderLog := (pt.deadline, pt.code) :: s.renderLog, creation := some { cr with html := pt.code, timestamp := pt.deadline }, persistLog := (pt.deadline, { cr with html := pt.code, timestamp := pt.deadline }) :: s.persistLog, lastSaved := some pt.deadline } : EngineState).history = s.history ∧
      ({ s with previewTimer := none, debouncedCode := pt.code, isSyncing := false, renderLog := (pt.deadline, pt.code) :: s.renderLog, creation := some { cr with html := pt.code, timestamp := pt.deadline }, persistLog := (pt.deadline, { cr with html := pt.code, timestamp := pt.deadline }) :: s.persistLog, lastSaved := some pt.deadline } : EngineState).historyIndex = s.historyIndex := ⟨rfl, rfl, rfl⟩
  rw [if_pos h4, if_pos h5]

/-- The snapshot-capture firing, when its guard passes and provenance is
`User`, pushes the captured buffer; depending on whether the resulting
history/index pair happens to equal the previous one, the re-triggered
snapshot effect arms a follow-up timer capturing the new values, or not.
Either way history, index and push log are as pushed, and a possible
follow-up timer captures exactly the pushed state. -/
theorem fireSnapshot_push_cases (s : EngineState) (st : SnapshotTimer)
    (hg : st.code ≠ "" ∧ 0 < st.hist.length ∧
        snapAt st.hist st.histIdx ≠ some st.code)
    (hflag : s.isInternalChange = false) :
    fireSnapshot s st = { s with snapshotTimer := none, history := (if historyCap < (s.history.take (st.histIdx + 1).toNat ++ [st.code]).length then (s.history.take (st.histIdx + 1).toNat ++ [st.code]).drop 1 else s.history.take (st.histIdx + 1).toNat ++ [st.code]), historyIndex := min (s.historyIndex + 1) 99, pushLog := (st.deadline, st.code) :: s.pushLog } ∨
    fireSnapshot s st = { s with snapshotTimer := some ⟨st.deadline + Ds, s.editableCode, (if historyCap < (s.history.take (st.histIdx + 1).toNat ++ [st.code]).length then (s.history.take (st.histIdx + 1).toNat ++ [st.code]).drop 1 else s.history.take (st.histIdx + 1).toNat ++ [st.code]), min (s.historyIndex + 1) 99⟩, history := (if historyCap < (s.history.take (st.histIdx + 1).toNat ++ [st.code]).length then (s.history.take (st.histIdx + 1).toNat ++ [st.code]).drop 1 else s.history.take (st.histIdx + 1).toNat ++ [st.code]), historyIndex := min (s.historyIndex + 1) 99, pushLog := (st.deadline, st.code) :: s.pushLog } := by
  have hflag' : ¬ (s.isInternalChange = true) := by
    rw [hflag]; exact Bool.false_ne_true
  unfold fireSnapshot
  dsimp only
  rw [if_pos hg]
  unfold runEffects effectsPass1
  dsimp only
  rw [if_pos (show s.editableCode = s.editableCode ∧ s.debouncedCode = s.debouncedCode ∧ s.creation = s.creation from ⟨rfl, rfl, rfl⟩)]
  by_cases hs1 : s.editableCode = s.editableCode ∧ (if historyCap < (s.history.take (st.histIdx + 1).toNat ++ [st.code]).length then (s.history.take (st.histIdx + 1).toNat ++ [st.code]).drop 1 else s.history.take (st.histIdx + 1).toNat ++ [st.code]) = s.history ∧ min (s.historyIndex + 1) 99 = s.historyIndex
  · rw [if_pos hs1]
    rw [if_pos (show s.creation = s.creation from rfl)]
    have h4 : ({ s with snapshotTimer := none, history := (if historyCap < (s.history.take (st.histIdx + 1).toNat ++ [st.code]).length then (s.history.take (st.histIdx + 1).toNat ++ [st.code]).drop 1 else s.history.take (st.histIdx + 1).toNat ++ [st.code]), historyIndex := min (s.historyIndex + 1) 99, pushLog := (st.deadline, st.code) :: s.pushLog } : EngineState).editableCode = s.editableCode ∧ ({ s with snapshotTimer := none, history := (if historyCap < (s.history.take (st.histIdx + 1).toNat ++ [st.code]).length then (s.history.take (st.histIdx + 1).toNat ++ [st.code]).drop 1 else s.history.take (st.histIdx + 1).toNat ++ [st.code]), historyIndex := min (s.historyIndex + 1) 99, pushLog := (st.deadline, st.code) :: s.pushLog } : EngineState).debouncedCode = s.debouncedCode := ⟨rfl, rfl⟩
    have h5 : ({ s with snapshotTimer := none, history := (if historyCap < (s.history.take (st.histIdx + 1).toNat ++ [st.code]).length then (s.history.take (st.histIdx + 1).toNat ++ [st.code]).drop 1 else s.history.take (st.histIdx + 1).toNat ++ [st.code]), historyIndex := min (s.historyIndex + 1) 99, pushLog := (st.deadline, st.code) :: s.pushLog } : EngineState).editableCode = s.editableCode ∧ ({ s with snapshotTimer := none, history := (if historyCap < (s.history.take (st.histIdx + 1).toNat ++ [st.code]).length then (s.history.take (st.histIdx + 1).toNat ++ [st.code]).drop 1 else s.history.take (st.histIdx + 1).toNat ++ [st.code]), historyIndex := min (s.historyIndex + 1) 99, pushLog := (st.deadline, st.code) :: s.pushLog } : EngineState).history = (if historyCap < (s.history.take (st.histIdx + 1).toNat ++ [st.code]).length then (s.history.take (st.histIdx + 1).toNat ++ [st.code]).drop 1 else s.history.take (st.histIdx + 1).toNat ++ [st.code]) ∧ ({ s with snapshotTimer := none, history := (if historyCap < (s.history.take (st.histIdx + 1).toNat ++ [st.code]).length then (s.history.take (st.histIdx + 1).toNat ++ [st.code]).drop 1 else s.history.take (st.histIdx + 1).toNat ++ [st.code]), historyIndex := min (s.historyIndex + 1) 99, pushLog := (st.deadline, st.code) :: s.pushLog } : EngineState).historyIndex = min (s.historyIndex + 1) 99 := ⟨rfl, rfl, rfl⟩
    rw [if_pos h4, if_pos h5]
    exact Or.inl rfl
  · rw [if_neg hs1]
    have hb : runSnapshotEffect st.deadline { s with snapshotTimer := none, history := (if historyCap < (s.history.take (st.histIdx + 1).toNat ++ [st.code]).length then (s.history.take (st.histIdx + 1).toNat ++ [st.code]).drop 1 else s.history.take (st.histIdx + 1).toNat ++ [st.code]), historyIndex := min (s.historyIndex + 1) 99, pushLog := (st.deadline, st.code) :: s.pushLog } = { s with snapshotTimer := some ⟨st.deadline + Ds, s.editableCode, (if historyCap < (s.history.take (st.histIdx + 1).toNat ++ [st.code]).length then (s.history.take (st.histIdx + 1).toNat ++ [st.code]).drop 1 else s.history.take (st.histIdx + 1).toNat ++ [st.code]), min (s.historyIndex + 1) 99⟩, history := (if historyCap < (s.history.take (st.histIdx + 1).toNat ++ [st.code]).length then (s.history.take (st.histIdx + 1).toNat ++ [st.code]).drop 1 else s.history.take (st.histIdx + 1).toNat ++ [st.code]), historyIndex := min (s.historyIndex + 1) 99, pushLog := (st.deadline, st.code) :: s.pushLog } := by
      unfold runSnapshotEffect
      dsimp only
      rw [if_neg hflag']
    rw [hb]
    rw [if_pos (show s.creation = s.creation from rfl)]
    have h4 : ({ s with snapshotTimer := some ⟨st.deadline + Ds, s.editableCode, (if historyCap < (s.history.take (st.histIdx + 1).toNat ++ [st.code]).length then (s.history.take (st.histIdx + 1).toNat ++ [st.code]).drop 1 else s.history.take (st.histIdx + 1).toNat ++ [st.code]), min (s.historyIndex + 1) 99⟩, history := (if historyCap < (s.history.take (st.histIdx + 1).toNat ++ [st.code]).length then (s.history.take (st.histIdx + 1).toNat ++ [st.code]).drop 1 else s.history.take (st.histIdx + 1).toNat ++ [st.code]), historyIndex := min (s.historyIndex + 1) 99, pushLog := (st.deadline, st.code) :: s.pushLog } : EngineState).editableCode = s.editableCode ∧ ({ s with snapshotTimer := some ⟨st.deadline + Ds, s.editableCode, (if historyCap < (s.history.take (st.histIdx + 1).toNat ++ [st.code]).length then (s.history.take (st.histIdx + 1).toNat ++ [st.code]).drop 1 else s.history.take (st.histIdx + 1).toNat ++ [st.code]), min (s.historyIndex + 1) 99⟩, history := (if historyCap < (s.history.take (st.histIdx + 1).toNat ++ [st.code]).length then (s.history.take (st.histIdx + 1).toNat ++ [st.code]).drop 1 else s.history.take (st.histIdx + 1).toNat ++ [st.code]), historyIndex := min (s.historyIndex + 1) 99, pushLog := (st.deadline, st.code) :: s.pushLog } : EngineState).debouncedCode = s.debouncedCode := ⟨rfl, rfl⟩
    have h5 : ({ s with snapshotTimer := some ⟨st.deadline + Ds, s.editableCode, (if historyCap < (s.history.take (st.histIdx + 1).toNat ++ [st.code]).length then (s.history.take (st.histIdx + 1).toNat ++ [st.code]).drop 1 else s.history.take (st.histIdx + 1).toNat ++ [st.code]), min (s.historyIndex + 1) 99⟩, history := (if historyCap < (s.history.take (st.histIdx + 1).toNat ++ [st.code]).length then (s.history.take (st.histIdx + 1).toNat ++ [st.code]).drop 1 else s.history.take (st.histIdx + 1).toNat ++ [st.code]), historyIndex := min (s.historyIndex + 1) 99, pushLog := (st.deadline, st.code) :: s.pushLog } : EngineState).editableCode = s.editableCode ∧ ({ s with snapshotTimer := some ⟨st.deadline + Ds, s.editableCode, (if historyCap < (s.history.take (st.histIdx + 1).toNat ++ [st.code]).length then (s.history.take (st.histIdx + 1).toNat ++ [st.code]).drop 1 else s.history.take (st.histIdx + 1).toNat ++ [st.code]), min (s.historyIndex + 1) 99⟩, history := (if historyCap < (s.history.take (st.histIdx + 1).toNat ++ [st.code]).length then (s.history.take (st.histIdx + 1).toNat ++ [st.code]).drop 1 else s.history.take (st.histIdx + 1).toNat ++ [st.code]), historyIndex := min (s.historyIndex + 1) 99, pushLog := (st.deadline, st.code) :: s.pushLog } : EngineState).history = (if historyCap < (s.history.take (st.histIdx + 1).toNat ++ [st.code]).length then (s.history.take (st.histIdx + 1).toNat ++ [st.code]).drop 1 else s.history.take (st.histIdx + 1).toNat ++ [st.code]) ∧ ({ s with snapshotTimer := some ⟨st.deadline + Ds, s.editableCode, (if historyCap < (s.history.take (st.histIdx + 1).toNat ++ [st.code]).length then (s.history.take (st.histIdx + 1).toNat ++ [st.code]).drop 1 else s.history.take (st.histIdx + 1).toNat ++ [st.code]), min (s.historyIndex + 1) 99⟩, history := (if historyCap < (s.history.take (st.histIdx + 1).toNat ++ [st.code]).length then (s.history.take (st.histIdx + 1).toNat ++ [st.code]).drop 1 else s.history.take (st.histIdx + 1).toNat ++ [st.code]), historyIndex := min (s.historyIndex + 1) 99, pushLog := (st.deadline, st.code) :: s.pushLog } : EngineState).historyIndex = min (s.historyIndex + 1) 99 := ⟨rfl, rfl, rfl⟩
    rw [if_pos h4, if_pos h5]
    exact Or.inr rfl

/-- The snapshot at the post-push index of the post-push history is exactly
the pushed content. -/
theorem snapAt_pushed (h : List String) (c : String) (i : Int)
    (h0 : 0 ≤ i) (h1 : i < (h.length : Int)) (h2 : h.length ≤ 100) :
    snapAt (if historyCap < (h.take (i + 1).toNat ++ [c]).length
            then (h.take (i + 1).toNat ++ [c]).drop 1
            else h.take (i + 1).toNat ++ [c])
      (min (i + 1) 99) = some c := by
  have htk : (h.take (i + 1).toNat).length = i.toNat + 1 := by
    rw [List.length_take]
    omega
  have hplen : (h.take (i + 1).toNat ++ [c]).length = i.toNat + 2 := by
    rw [List.length_append, htk]
    rfl
  split_ifs with hcap
  · rw [hplen] at hcap
    simp only [historyCap] at hcap
    have h99 : i.toNat = 99 := by omega
    have hmin : min (i + 1) 99 = 99 := by omega
    rw [hmin]
    unfold snapAt
    rw [if_neg (by omega)]
    rw [List.get?_eq_getElem?]
    rw [show ((99 : Int)).toNat = 99 from rfl]
    rw [List.getElem?_drop]
    rw [List.getElem?_append_right (by rw [htk]; omega)]
    rw [htk]
    rw [show 1 + 99 - (i.toNat + 1) = 0 from by omega]
    rfl
  · rw [hplen] at hcap
    simp only [historyCap] at hcap
    have hmin : min (i + 1) 99 = i + 1 := by omega
    rw [hmin]
    unfold snapAt
    rw [if_neg (by omega)]
    rw [List.get?_eq_getElem?]
    rw [List.getElem?_append_right (by rw [htk]; omega)]
    rw [htk]
    rw [show (i + 1).toNat - (i.toNat + 1) = 0 from by omega]
    rfl

/-! ## The burst scenario (C1) -/

/-- A quiescent loaded state: both debounce channels idle, the buffer, the
stabilized copy, the artifact's persisted content and the snapshot at the
current history index all agree. -/
def Quiescent (s : EngineState) (cr : Creation) : Prop :=
  s.creation = some cr ∧ s.editableCode = cr.html ∧ s.debouncedCode = cr.html ∧
  s.history ≠ [] ∧ s.history.length ≤ 100 ∧
  snapAt s.history s.historyIndex = some cr.html ∧
  0 ≤ s.historyIndex ∧ s.historyIndex < (s.history.length : Int) ∧
  s.prevCreationId = some cr.id ∧ s.isInternalChange = false ∧
  s.previewTimer = none ∧ s.snapshotTimer = none

/-- The state in the middle of an edit burst over quiescent `s0`: the last
edit was `c` at time `t`, the stabilized copy still shows the pre-burst
content, nothing has been persisted, rendered or snapshotted, and both
channels are armed from the last edit (the preview channel is idle when the
burst has returned to the pre-burst text). -/
def MidBurst (s0 : EngineState) (cr : Creation) (t : Nat) (c : String)
    (s : EngineState) : Prop :=
  s.editableCode = c ∧ s.debouncedCode = cr.html ∧ s.creation = some cr ∧
  s.history = s0.history ∧ s.historyIndex = s0.historyIndex ∧
  s.isInternalChange = false ∧ s.prevCreationId = some cr.id ∧
  s.previewTimer = (if c = cr.html then none else some ⟨t + Dp, c, some cr⟩) ∧
  s.snapshotTimer = some ⟨t + Ds, c, s0.history, s0.historyIndex⟩ ∧
  s.persistLog = s0.persistLog ∧ s.pushLog = s0.pushLog ∧
  s.renderLog = s0.renderLog ∧ s.lastSaved = s0.lastSaved

/-- A burst continuation: starting after an edit of `c` at time `t`, the
listed edits are strictly later, gapped below `Dp`, each changing the text;
`tl`/`cl` are the time and content of the last edit. -/
inductive Burst : Nat → String → List (Nat × String) → Nat → String → Prop where
  | nil (t : Nat) (c : String) : Burst t c [] t c
  | cons (t : Nat) (c : String) (t' : Nat) (c' : String)
      (rest : List (Nat × String)) (tl : Nat) (cl : String)
      (hlt : t < t') (hgap : t' < t + Dp) (hcc : c' ≠ c)
      (htail : Burst t' c' rest tl cl) : Burst t c ((t', c') :: rest) tl cl

/-- The first edit of a burst moves a quiescent state into a mid-burst
state. -/
theorem midBurst_start (s0 : EngineState) (cr : Creation) (t : Nat) (c : String)
    (hq : Quiescent s0 cr) (hc : c ≠ cr.html) :
    MidBurst s0 cr t c (editEv t c s0) := by
  obtain ⟨h1, h2, h3, h4, h5, h6, h7, h8, h9, h10, h11, h12⟩ := hq
  rw [editEv_eq s0 t c (by rw [h2]; exact hc) h10]
  rw [if_neg (by rw [h3]; exact hc)]
  refine ⟨rfl, h3, h1, rfl, rfl, h10, h9, ?_, rfl, rfl, rfl, rfl, rfl⟩
  rw [if_neg hc, h1]

/-- A further edit of a burst keeps the state mid-burst, re-keyed to the
new edit. -/
theorem midBurst_step (s0 : EngineState) (cr : Creation) (t : Nat) (c : String)
    (s : EngineState) (t' : Nat) (c' : String)
    (hm : MidBurst s0 cr t c s) (hc : c' ≠ c) :
    MidBurst s0 cr t' c' (editEv t' c' s) := by
  obtain ⟨m1, m2, m3, m4, m5, m6, m7, m8, m9, m10, m11, m12, m13⟩ := hm
  rw [editEv_eq s t' c' (by rw [m1]; exact hc) m6]
  by_cases hdb : c' = cr.html
  · rw [if_pos (by rw [m2]; exact hdb)]
    refine ⟨rfl, m2, m3, m4, m5, m6, m7, ?_, ?_, m10, m11, m12, m13⟩
    · rw [if_pos hdb]
    · rw [m4, m5]
  · rw [if_neg (by rw [m2]; exact hdb)]
    refine ⟨rfl, m2, m3, m4, m5, m6, m7, ?_, ?_, m10, m11, m12, m13⟩
    · rw [if_neg hdb, m3]
    · rw [m4, m5]

/-- While mid-burst, no timer is due strictly before `t + Dp`. -/
theorem midBurst_elapse (s0 : EngineState) (cr : Creation) (t : Nat)
    (c : String) (s : EngineState) (T fuel : Nat)
    (hm : MidBurst s0 cr t c s) (hT : T < t + Dp) :
    elapse T fuel s = s := by
  apply elapse_of_none
  apply nextFire_none
  · intro pt hpt
    rw [hm.2.2.2.2.2.2.2.1] at hpt
    split at hpt
    · cases hpt
    · cases hpt
      simp only [Dp, Ds] at *
      omega
  · intro st hst
    rw [hm.2.2.2.2.2.2.2.2.1] at hst
    cases hst
    simp only [Dp, Ds] at *
    omega

/-- Running the remaining edits of a burst preserves the mid-burst state. -/
theorem midBurst_run (s0 : EngineState) (cr : Creation)
    (edits : List (Nat × String)) :
    ∀ (t tl : Nat) (c cl : String) (s : EngineState),
      MidBurst s0 cr t c s → Burst t c edits tl cl →
      MidBurst s0 cr tl cl
        (run s (edits.map (fun pr => (pr.1, Ev.edit pr.2)))) := by
  induction edits with
  | nil =>
      intro t tl c cl s hm hb
      cases hb
      exact hm
  | cons e rest ih =>
      intro t tl c cl s hm hb
      cases hb with
      | cons _ _ t' c' _ _ _ hlt hgap hcc htail =>
          dsimp only [List.map, run, applyEv]
          rw [midBurst_elapse s0 cr t c s t' fuelN hm hgap]
          exact ih t' tl c' cl _ (midBurst_step s0 cr t c s t' c' hm hcc) htail

/-- End of a burst over a quiescent state: once both delays elapse
undisturbed, exactly one stabilization/render, one persistence call and one
snapshot push happen — all carrying the final burst content — and the
engine is quiescent again. -/
theorem midBurst_finish (s0 : EngineState) (cr : Creation) (t : Nat)
    (c : String) (s : EngineState) (T k : Nat)
    (hq : Quiescent s0 cr) (hm : MidBurst s0 cr t c s)
    (hc1 : c ≠ cr.html) (hc2 : c ≠ "") (hT : t + 2 * Ds ≤ T) :
    (elapse T (k + 3) s).persistLog
        = (t + Dp, { cr with html := c, timestamp := t + Dp }) :: s0.persistLog ∧
    (elapse T (k + 3) s).pushLog = (t + Ds, c) :: s0.pushLog ∧
    (elapse T (k + 3) s).renderLog = (t + Dp, c) :: s0.renderLog ∧
    (elapse T (k + 3) s).debouncedCode = c ∧
    (elapse T (k + 3) s).editableCode = c ∧
    (elapse T (k + 3) s).isSyncing = false ∧
    (elapse T (k + 3) s).previewTimer = none ∧
    (elapse T (k + 3) s).snapshotTimer = none ∧
    (elapse T (k + 3) s).creation
        = some { cr with html := c, timestamp := t + Dp } ∧
    (elapse T (k + 3) s).lastSaved = some (t + Dp) := by
  obtain ⟨q1, q2, q3, q4, q5, q6, q7, q8, q9, q10, q11, q12⟩ := hq
  obtain ⟨m1, m2, m3, m4, m5, m6, m7, m8, m9, m10, m11, m12, m13⟩ := hm
  rw [if_neg hc1] at m8
  have hDp : t + Dp ≤ T := by simp only [Dp, Ds] at hT ⊢; omega
  have hDs : t + Ds ≤ T := by simp only [Dp, Ds] at hT ⊢; omega
  have hDs2 : t + Ds + Ds ≤ T := by simp only [Dp, Ds] at hT ⊢; omega
  -- fire 1: preview-sync at t + Dp
  have hnf1 : nextFire T s = some (Sum.inl (⟨t + Dp, c, some cr⟩ : PreviewTimer)) := by
    unfold nextFire
    rw [m8, m9]
    dsimp only
    rw [if_pos ⟨hDp, by simp only [Dp, Ds]; omega⟩]
  have e1 : elapse T (k + 3) s = elapse T (k + 2) (firePreview s (⟨t + Dp, c, some cr⟩ : PreviewTimer)) := by
    show elapse T (k + 2 + 1) s = elapse T (k + 2) (firePreview s (⟨t + Dp, c, some cr⟩ : PreviewTimer))
    exact elapse_fire_preview T (k + 2) s (⟨t + Dp, c, some cr⟩ : PreviewTimer) hnf1
  have e2 : firePreview s (⟨t + Dp, c, some cr⟩ : PreviewTimer) = { s with previewTimer := none, debouncedCode := c, isSyncing := false, renderLog := (t + Dp, c) :: s.renderLog, creation := some { cr with html := c, timestamp := t + Dp }, persistLog := (t + Dp, { cr with html := c, timestamp := t + Dp }) :: s.persistLog, lastSaved := some (t + Dp) } :=
    firePreview_eq s (⟨t + Dp, c, some cr⟩ : PreviewTimer) cr rfl hc1 (by rw [m2]; exact hc1) m1 m3 m7
  -- fire 2: snapshot-capture at t + Ds
  have hnf2 : nextFire T ({ s with previewTimer := none, debouncedCode := c, isSyncing := false, renderLog := (t + Dp, c) :: s.renderLog, creation := some { cr with html := c, timestamp := t + Dp }, persistLog := (t + Dp, { cr with html := c, timestamp := t + Dp }) :: s.persistLog, lastSaved := some (t + Dp) } : EngineState) = some (Sum.inr (⟨t + Ds, c, s0.history, s0.historyIndex⟩ : SnapshotTimer)) := by
    unfold nextFire
    dsimp only
    rw [m9]
    dsimp only
    rw [if_pos hDs]
  have e3 : elapse T (k + 2) ({ s with previewTimer := none, debouncedCode := c, isSyncing := false, renderLog := (t + Dp, c) :: s.renderLog, creation := some { cr with html := c, timestamp := t + Dp }, persistLog := (t + Dp, { cr with html := c, timestamp := t + Dp }) :: s.persistLog, lastSaved := some (t + Dp) } : EngineState)
      = elapse T (k + 1) (fireSnapshot { s with previewTimer := none, debouncedCode := c, isSyncing := false, renderLog := (t + Dp, c) :: s.renderLog, creation := some { cr with html := c, timestamp := t + Dp }, persistLog := (t + Dp, { cr with html := c, timestamp := t + Dp }) :: s.persistLog, lastSaved := some (t + Dp) } (⟨t + Ds, c, s0.history, s0.historyIndex⟩ : SnapshotTimer)) := by
    show elapse T (k + 1 + 1) _ = _
    exact elapse_fire_snapshot T (k + 1) { s with previewTimer := none, debouncedCode := c, isSyncing := false, renderLog := (t + Dp, c) :: s.renderLog, creation := some { cr with html := c, timestamp := t + Dp }, persistLog := (t + Dp, { cr with html := c, timestamp := t + Dp }) :: s.persistLog, lastSaved := some (t + Dp) } (⟨t + Ds, c, s0.history, s0.historyIndex⟩ : SnapshotTimer) hnf2
  have hg : (⟨t + Ds, c, s0.history, s0.historyIndex⟩ : SnapshotTimer).code ≠ "" ∧ 0 < (⟨t + Ds, c, s0.history, s0.historyIndex⟩ : SnapshotTimer).hist.length ∧
      snapAt (⟨t + Ds, c, s0.history, s0.historyIndex⟩ : SnapshotTimer).hist (⟨t + Ds, c, s0.history, s0.historyIndex⟩ : SnapshotTimer).histIdx ≠ some (⟨t + Ds, c, s0.history, s0.historyIndex⟩ : SnapshotTimer).code := by
    refine ⟨hc2, List.length_pos.mpr q4, ?_⟩
    rw [show (⟨t + Ds, c, s0.history, s0.historyIndex⟩ : SnapshotTimer).hist = s0.history from rfl,
        show (⟨t + Ds, c, s0.history, s0.historyIndex⟩ : SnapshotTimer).histIdx = s0.historyIndex from rfl, q6]
    intro h
    exact hc1 (Option.some.inj h).symm
  have e4 := fireSnapshot_push_cases { s with previewTimer := none, debouncedCode := c, isSyncing := false, renderLog := (t + Dp, c) :: s.renderLog, creation := some { cr with html := c, timestamp := t + Dp }, persistLog := (t + Dp, { cr with html := c, timestamp := t + Dp }) :: s.persistLog, lastSaved := some (t + Dp) } (⟨t + Ds, c, s0.history, s0.historyIndex⟩ : SnapshotTimer) hg m6
  have hEnd1 : elapse T (k + 3) s
      = elapse T (k + 1) (fireSnapshot { s with previewTimer := none, debouncedCode := c, isSyncing := false, renderLog := (t + Dp, c) :: s.renderLog, creation := some { cr with html := c, timestamp := t + Dp }, persistLog := (t + Dp, { cr with html := c, timestamp := t + Dp }) :: s.persistLog, lastSaved := some (t + Dp) } (⟨t + Ds, c, s0.history, s0.historyIndex⟩ : SnapshotTimer)) := by
    rw [e1, e2, e3]
  rcases e4 with e4 | e4
  · -- the re-triggered snapshot effect armed nothing
    have hnone : nextFire T (fireSnapshot { s with previewTimer := none, debouncedCode := c, isSyncing := false, renderLog := (t + Dp, c) :: s.renderLog, creation := some { cr with html := c, timestamp := t + Dp }, persistLog := (t + Dp, { cr with html := c, timestamp := t + Dp }) :: s.persistLog, lastSaved := some (t + Dp) } (⟨t + Ds, c, s0.history, s0.historyIndex⟩ : SnapshotTimer)) = none := by
      rw [e4]
      apply nextFire_none
      · intro pt' hpt'
        exact Option.noConfusion
          (show (none : Option PreviewTimer) = some pt' from hpt')
      · intro st' hst'
        exact Option.noConfusion
          (show (none : Option SnapshotTimer) = some st' from hst')
    have hEnd : elapse T (k + 3) s = fireSnapshot { s with previewTimer := none, debouncedCode := c, isSyncing := false, renderLog := (t + Dp, c) :: s.renderLog, creation := some { cr with html := c, timestamp := t + Dp }, persistLog := (t + Dp, { cr with html := c, timestamp := t + Dp }) :: s.persistLog, lastSaved := some (t + Dp) } (⟨t + Ds, c, s0.history, s0.historyIndex⟩ : SnapshotTimer) := by
      rw [hEnd1]
      exact elapse_of_none T (k + 1) _ hnone
    rw [hEnd, e4]
    refine ⟨?_, ?_, ?_, rfl, ?_, rfl, rfl, rfl, rfl, rfl⟩
    · rw [m10]
    · rw [m11]
    · rw [m12]
    · exact m1
  · -- the re-triggered snapshot effect armed a follow-up timer; its firing
    -- is a no-op because the pushed snapshot equals the buffer
    have hnf3 : nextFire T (fireSnapshot { s with previewTimer := none, debouncedCode := c, isSyncing := false, renderLog := (t + Dp, c) :: s.renderLog, creation := some { cr with html := c, timestamp := t + Dp }, persistLog := (t + Dp, { cr with html := c, timestamp := t + Dp }) :: s.persistLog, lastSaved := some (t + Dp) } (⟨t + Ds, c, s0.history, s0.historyIndex⟩ : SnapshotTimer))
        = some (Sum.inr ⟨t + Ds + Ds, c,
            if historyCap < ((s.history.take (s0.historyIndex + 1).toNat)
                ++ [c]).length
            then ((s.history.take (s0.historyIndex + 1).toNat) ++ [c]).drop 1
            else (s.history.take (s0.historyIndex + 1).toNat) ++ [c],
            min (s.historyIndex + 1) 99⟩) := by
      rw [e4]
      unfold nextFire
      dsimp only
      rw [if_pos hDs2, m1]
    have hguard : ¬ ((⟨t + Ds + Ds, c,
        if historyCap < ((s.history.take (s0.historyIndex + 1).toNat)
            ++ [c]).length
        then ((s.history.take (s0.historyIndex + 1).toNat) ++ [c]).drop 1
        else (s.history.take (s0.historyIndex + 1).toNat) ++ [c],
        min (s.historyIndex + 1) 99⟩ : SnapshotTimer).code ≠ "" ∧
        0 < (⟨t + Ds + Ds, c,
        if historyCap < ((s.history.take (s0.historyIndex + 1).toNat)
            ++ [c]).length
        then ((s.history.take (s0.historyIndex + 1).toNat) ++ [c]).drop 1
        else (s.history.take (s0.historyIndex + 1).toNat) ++ [c],
        min (s.historyIndex + 1) 99⟩ : SnapshotTimer).hist.length ∧
        snapAt (⟨t + Ds + Ds, c,
        if historyCap < ((s.history.take (s0.historyIndex + 1).toNat)
            ++ [c]).length
        then ((s.history.take (s0.historyIndex + 1).toNat) ++ [c]).drop 1
        else (s.history.take (s0.historyIndex + 1).toNat) ++ [c],
        min (s.historyIndex + 1) 99⟩ : SnapshotTimer).hist
          (⟨t + Ds + Ds, c,
        if historyCap < ((s.history.take (s0.historyIndex + 1).toNat)
            ++ [c]).length
        then ((s.history.take (s0.historyIndex + 1).toNat) ++ [c]).drop 1
        else (s.history.take (s0.historyIndex + 1).toNat) ++ [c],
        min (s.historyIndex + 1) 99⟩ : SnapshotTimer).histIdx
          ≠ some (⟨t + Ds + Ds, c,
        if historyCap < ((s.history.take (s0.historyIndex + 1).toNat)
            ++ [c]).length
        then ((s.history.take (s0.historyIndex + 1).toNat) ++ [c]).drop 1
        else (s.history.take (s0.historyIndex + 1).toNat) ++ [c],
        min (s.historyIndex + 1) 99⟩ : SnapshotTimer).code) := by
      intro hx
      apply hx.2.2
      show snapAt
          (if historyCap < ((s.history.take (s0.historyIndex + 1).toNat)
              ++ [c]).length
           then ((s.history.take (s0.historyIndex + 1).toNat) ++ [c]).drop 1
           else (s.history.take (s0.historyIndex + 1).toNat) ++ [c])
          (min (s.historyIndex + 1) 99) = some c
      rw [m4, m5]
      have := snapAt_pushed s0.history c s0.historyIndex q7 q8 q5
      rw [show (s0.historyIndex + 1).toNat = s0.historyIndex.toNat + 1 from by omega] at this
      rw [show (s0.historyIndex + 1).toNat = s0.historyIndex.toNat + 1 from by omega]
      exact this
    have hguard2 : ¬ (c ≠ "" ∧
        0 < (if historyCap < ((s.history.take (s0.historyIndex + 1).toNat)
                ++ [c]).length
             then ((s.history.take (s0.historyIndex + 1).toNat) ++ [c]).drop 1
             else (s.history.take (s0.historyIndex + 1).toNat) ++ [c]).length ∧
        snapAt (if historyCap < ((s.history.take (s0.historyIndex + 1).toNat)
                ++ [c]).length
             then ((s.history.take (s0.historyIndex + 1).toNat) ++ [c]).drop 1
             else (s.history.take (s0.historyIndex + 1).toNat) ++ [c])
          (min (s.historyIndex + 1) 99) ≠ some c) := by
      intro hx
      apply hx.2.2
      rw [m4, m5]
      have hsnap := snapAt_pushed s0.history c s0.historyIndex q7 q8 q5
      rw [show (s0.historyIndex + 1).toNat = s0.historyIndex.toNat + 1 from by omega] at hsnap
      rw [show (s0.historyIndex + 1).toNat = s0.historyIndex.toNat + 1 from by omega]
      exact hsnap
    have e5 : elapse T (k + 1) (fireSnapshot { s with previewTimer := none, debouncedCode := c, isSyncing := false, renderLog := (t + Dp, c) :: s.renderLog, creation := some { cr with html := c, timestamp := t + Dp }, persistLog := (t + Dp, { cr with html := c, timestamp := t + Dp }) :: s.persistLog, lastSaved := some (t + Dp) } (⟨t + Ds, c, s0.history, s0.historyIndex⟩ : SnapshotTimer))
        = elapse T k (fireSnapshot (fireSnapshot { s with previewTimer := none, debouncedCode := c, isSyncing := false, renderLog := (t + Dp, c) :: s.renderLog, creation := some { cr with html := c, timestamp := t + Dp }, persistLog := (t + Dp, { cr with html := c, timestamp := t + Dp }) :: s.persistLog, lastSaved := some (t + Dp) } (⟨t + Ds, c, s0.history, s0.historyIndex⟩ : SnapshotTimer)) (⟨t + Ds + Ds, c,
        if historyCap < ((s.history.take (s0.historyIndex + 1).toNat)
            ++ [c]).length
        then ((s.history.take (s0.historyIndex + 1).toNat) ++ [c]).drop 1
        else (s.history.take (s0.historyIndex + 1).toNat) ++ [c],
        min (s.historyIndex + 1) 99⟩ : SnapshotTimer)) :=
      elapse_fire_snapshot T k (fireSnapshot { s with previewTimer := none, debouncedCode := c, isSyncing := false, renderLog := (t + Dp, c) :: s.renderLog, creation := some { cr with html := c, timestamp := t + Dp }, persistLog := (t + Dp, { cr with html := c, timestamp := t + Dp }) :: s.persistLog, lastSaved := some (t + Dp) } (⟨t + Ds, c, s0.history, s0.historyIndex⟩ : SnapshotTimer)) (⟨t + Ds + Ds, c,
        if historyCap < ((s.history.take (s0.historyIndex + 1).toNat)
            ++ [c]).length
        then ((s.history.take (s0.historyIndex + 1).toNat) ++ [c]).drop 1
        else (s.history.take (s0.historyIndex + 1).toNat) ++ [c],
        min (s.historyIndex + 1) 99⟩ : SnapshotTimer) hnf3
    have e6 : fireSnapshot (fireSnapshot { s with previewTimer := none, debouncedCode := c, isSyncing := false, renderLog := (t + Dp, c) :: s.renderLog, creation := some { cr with html := c, timestamp := t + Dp }, persistLog := (t + Dp, { cr with html := c, timestamp := t + Dp }) :: s.persistLog, lastSaved := some (t + Dp) } (⟨t + Ds, c, s0.history, s0.historyIndex⟩ : SnapshotTimer)) (⟨t + Ds + Ds, c,
        if historyCap < ((s.history.take (s0.historyIndex + 1).toNat)
            ++ [c]).length
        then ((s.history.take (s0.historyIndex + 1).toNat) ++ [c]).drop 1
        else (s.history.take (s0.historyIndex + 1).toNat) ++ [c],
        min (s.historyIndex + 1) 99⟩ : SnapshotTimer)
        = { fireSnapshot { s with previewTimer := none, debouncedCode := c, isSyncing := false, renderLog := (t + Dp, c) :: s.renderLog, creation := some { cr with html := c, timestamp := t + Dp }, persistLog := (t + Dp, { cr with html := c, timestamp := t + Dp }) :: s.persistLog, lastSaved := some (t + Dp) } (⟨t + Ds, c, s0.history, s0.historyIndex⟩ : SnapshotTimer) with snapshotTimer := none } := by
      rw [e4]
      unfold fireSnapshot
      dsimp only
      rw [if_neg hguard2]
    have hnone2 : nextFire T
        ({ fireSnapshot { s with previewTimer := none, debouncedCode := c, isSyncing := false, renderLog := (t + Dp, c) :: s.renderLog, creation := some { cr with html := c, timestamp := t + Dp }, persistLog := (t + Dp, { cr with html := c, timestamp := t + Dp }) :: s.persistLog, lastSaved := some (t + Dp) } (⟨t + Ds, c, s0.history, s0.historyIndex⟩ : SnapshotTimer) with snapshotTimer := none } : EngineState)
        = none := by
      rw [e4]
      apply nextFire_none
      · intro pt' hpt'
        exact Option.noConfusion
          (show (none : Option PreviewTimer) = some pt' from hpt')
      · intro st' hst'
        exact Option.noConfusion
          (show (none : Option SnapshotTimer) = some st' from hst')
    have hEnd : elapse T (k + 3) s
        = { fireSnapshot { s with previewTimer := none, debouncedCode := c, isSyncing := false, renderLog := (t + Dp, c) :: s.renderLog, creation := some { cr with html := c, timestamp := t + Dp }, persistLog := (t + Dp, { cr with html := c, timestamp := t + Dp }) :: s.persistLog, lastSaved := some (t + Dp) } (⟨t + Ds, c, s0.history, s0.historyIndex⟩ : SnapshotTimer) with snapshotTimer := none } := by
      rw [hEnd1, e5, e6]
      exact elapse_of_none T k _ hnone2
    rw [hEnd, e4]
    refine ⟨?_, ?_, ?_, rfl, ?_, rfl, rfl, rfl, rfl, rfl⟩
    · rw [m10]
    · rw [m11]
    · rw [m12]
    · exact m1

/-- C1 (amended): for a burst of edits over a quiescent engine whose
inter-edit gaps are below the preview delay `Dp` (hence below `Ds`), with
adjacent edits distinct and a final content that is non-empty and differs
from the pre-burst persisted/snapshot content, once both delays elapse
undisturbed exactly one persistence call, one snapshot push and one
render/stabilization occur, each carrying the content present at the end
of the burst; no intermediate keystroke state is persisted, rendered or
snapshotted.  (The claim's gap bound `Ds` is corrected to `Dp`: a gap in
`[Dp, Ds)` lets the preview channel fire mid-burst and persist
intermediate content, see the counterexample.) -/
theorem c1_burst_amended (s0 : EngineState) (cr : Creation)
    (t1 tl T k : Nat) (c1 cl : String) (edits : List (Nat × String))
    (hq : Quiescent s0 cr) (hc1 : c1 ≠ cr.html)
    (hb : Burst t1 c1 edits tl cl)
    (hcl1 : cl ≠ cr.html) (hcl2 : cl ≠ "") (hT : tl + 2 * Ds ≤ T) :
    (elapse T (k + 3)
        (run s0 ((t1, Ev.edit c1) :: edits.map fun pr => (pr.1, Ev.edit pr.2)))).persistLog
        = (tl + Dp, { cr with html := cl, timestamp := tl + Dp }) :: s0.persistLog ∧
    (elapse T (k + 3)
        (run s0 ((t1, Ev.edit c1) :: edits.map fun pr => (pr.1, Ev.edit pr.2)))).pushLog
        = (tl + Ds, cl) :: s0.pushLog ∧
    (elapse T (k + 3)
        (run s0 ((t1, Ev.edit c1) :: edits.map fun pr => (pr.1, Ev.edit pr.2)))).renderLog
        = (tl + Dp, cl) :: s0.renderLog ∧
    (elapse T (k + 3)
        (run s0 ((t1, Ev.edit c1) :: edits.map fun pr => (pr.1, Ev.edit pr.2)))).debouncedCode = cl ∧
    (elapse T (k + 3)
        (run s0 ((t1, Ev.edit c1) :: edits.map fun pr => (pr.1, Ev.edit pr.2)))).editableCode = cl ∧
    (elapse T (k + 3)
        (run s0 ((t1, Ev.edit c1) :: edits.map fun pr => (pr.1, Ev.edit pr.2)))).isSyncing = false ∧
    (elapse T (k + 3)
        (run s0 ((t1, Ev.edit c1) :: edits.map fun pr => (pr.1, Ev.edit pr.2)))).previewTimer = none ∧
    (elapse T (k + 3)
        (run s0 ((t1, Ev.edit c1) :: edits.map fun pr => (pr.1, Ev.edit pr.2)))).snapshotTimer = none ∧
    (elapse T (k + 3)
        (run s0 ((t1, Ev.edit c1) :: edits.map fun pr => (pr.1, Ev.edit pr.2)))).creation
        = some { cr with html := cl, timestamp := tl + Dp } ∧
    (elapse T (k + 3)
        (run s0 ((t1, Ev.edit c1) :: edits.map fun pr => (pr.1, Ev.edit pr.2)))).lastSaved
        = some (tl + Dp) := by
  have hq11 : s0.previewTimer = none := hq.2.2.2.2.2.2.2.2.2.2.1
  have hq12 : s0.snapshotTimer = none := hq.2.2.2.2.2.2.2.2.2.2.2
  have hnf0 : nextFire t1 s0 = none := by
    apply nextFire_none
    · intro pt hpt
      rw [hq11] at hpt
      exact Option.noConfusion hpt
    · intro st hst
      rw [hq12] at hst
      exact Option.noConfusion hst
  have hrun : run s0 ((t1, Ev.edit c1) :: edits.map fun pr => (pr.1, Ev.edit pr.2))
      = run (editEv t1 c1 s0) (edits.map fun pr => (pr.1, Ev.edit pr.2)) := by
    dsimp only [run, applyEv]
    rw [elapse_of_none t1 fuelN s0 hnf0]
  have hmid := midBurst_run s0 cr edits t1 tl c1 cl (editEv t1 c1 s0)
    (midBurst_start s0 cr t1 c1 hq hc1) hb
  have hfin := midBurst_finish s0 cr tl cl
    (run (editEv t1 c1 s0) (edits.map fun pr => (pr.1, Ev.edit pr.2)))
    T k hq hmid hcl1 hcl2 hT
  rw [hrun]
  exact hfin

/-- Witness for `c1_burst_amended`: the single-edit burst `edit("AB")` at
2000ms on the quiescent state reached by loading the artifact `"A"`. -/
theorem c1_burst_amended_witness :
    (elapse 4000 (0 + 3)
        (run q0 ((2000, Ev.edit "AB") :: List.map (fun pr => (pr.1, Ev.edit pr.2)) ([] : List (Nat × String))))).persistLog
        = (2000 + Dp, { artA with html := "AB", timestamp := 2000 + Dp }) :: q0.persistLog ∧
    (elapse 4000 (0 + 3)
        (run q0 ((2000, Ev.edit "AB") :: List.map (fun pr => (pr.1, Ev.edit pr.2)) ([] : List (Nat × String))))).pushLog
        = (2000 + Ds, "AB") :: q0.pushLog ∧
    (elapse 4000 (0 + 3)
        (run q0 ((2000, Ev.edit "AB") :: List.map (fun pr => (pr.1, Ev.edit pr.2)) ([] : List (Nat × String))))).renderLog
        = (2000 + Dp, "AB") :: q0.renderLog ∧
    (elapse 4000 (0 + 3)
        (run q0 ((2000, Ev.edit "AB") :: List.map (fun pr => (pr.1, Ev.edit pr.2)) ([] : List (Nat × String))))).debouncedCode = "AB" ∧
    (elapse 4000 (0 + 3)
        (run q0 ((2000, Ev.edit "AB") :: List.map (fun pr => (pr.1, Ev.edit pr.2)) ([] : List (Nat × String))))).editableCode = "AB" ∧
    (elapse 4000 (0 + 3)
        (run q0 ((2000, Ev.edit "AB") :: List.map (fun pr => (pr.1, Ev.edit pr.2)) ([] : List (Nat × String))))).isSyncing = false ∧
    (elapse 4000 (0 + 3)
        (run q0 ((2000, Ev.edit "AB") :: List.map (fun pr => (pr.1, Ev.edit pr.2)) ([] : List (Nat × String))))).previewTimer = none ∧
    (elapse 4000 (0 + 3)
        (run q0 ((2000, Ev.edit "AB") :: List.map (fun pr => (pr.1, Ev.edit pr.2)) ([] : List (Nat × String))))).snapshotTimer = none ∧
    (elapse 4000 (0 + 3)
        (run q0 ((2000, Ev.edit "AB") :: List.map (fun pr => (pr.1, Ev.edit pr.2)) ([] : List (Nat × String))))).creation
        = some { artA with html := "AB", timestamp := 2000 + Dp } ∧
    (elapse 4000 (0 + 3)
        (run q0 ((2000, Ev.edit "AB") :: List.map (fun pr => (pr.1, Ev.edit pr.2)) ([] : List (Nat × String))))).lastSaved
        = some (2000 + Dp) :=
  c1_burst_amended q0 artA 2000 2000 4000 0 "AB" "AB" []
    (by unfold Quiescent; decide) (by decide) (Burst.nil 2000 "AB")
    (by decide) (by decide) (by decide)

end GiveMeIdea
